import Mathlib

/-!
# argocd-dex: secret redaction and the dex supervisor loop

A shallow embedding of `cmd/argocd-dex/commands/argocd_dex.go`.

* The dynamic trees produced by `yaml.Unmarshal` (`map[string]any`, `[]any`, scalars) are the
  inductive type `Value`. A Go map has no duplicate keys and its iteration order is not
  observable here, so a map is a list of entries, and a `range` loop that assigns to the key
  it is visiting rewrites each entry in place.
* `iterateStringFields`, the callback of `redactor` and the hand-written masking of
  `gendexcfg` are pure functions on such trees (the Go code mutates in place; on a tree,
  without aliasing, that is the same as returning the rewritten tree).
* The loop of `rundex` is a function from an environment (the answers of the collaborators:
  the config generator, the file system, the process API) and the list of snapshots received
  on `updateCh` to the outcome of the run, together with the trace of everything it did.
-/

namespace ArgoDex

/-! ## Dynamic trees -/

/-- The values `yaml.Unmarshal` puts behind `any`: string-keyed maps, sequences and scalar
leaves (`nil`, booleans, numbers, strings). -/
inductive Value where
  | null : Value
  | bool (b : Bool) : Value
  | num (n : Int) : Value
  | str (s : String) : Value
  | seq (xs : List Value) : Value
  | map (kvs : List (String × Value)) : Value

mutual
/-- The function `iterateStringFields` (lines 223-238): a type switch on the node; a map
visits its fields, a sequence its elements, anything else is left alone. -/
def iterateStringFields (callback : String → String → String) : Value → Value
  | Value.map kvs => Value.map (iterateFields callback kvs)
  | Value.seq xs => Value.seq (iterateElems callback xs)
  | v => v
/-- The loop `for field, val := range obj` (lines 226-232): a string value is overwritten by
`callback(field, strVal)`, any other value is walked recursively. -/
def iterateFields (callback : String → String → String) :
    List (String × Value) → List (String × Value)
  | [] => []
  | (field, Value.str strVal) :: rest =>
      (field, Value.str (callback field strVal)) :: iterateFields callback rest
  | (field, val) :: rest =>
      (field, iterateStringFields callback val) :: iterateFields callback rest
/-- The loop `for i := range obj` (lines 234-236) over a sequence. -/
def iterateElems (callback : String → String → String) : List Value → List Value
  | [] => []
  | x :: rest => iterateStringFields callback x :: iterateElems callback rest
end

/-- The callback `redactor` passes to `iterateStringFields` (lines 244-249). -/
def redactorCallback (name val : String) : String :=
  if name = "clientSecret" ∨ name = "secret" ∨ name = "bindPW" then "********" else val

/-- The tree `redactor` marshals: the parsed config after the walk (line 244). -/
def redactTree (config : Value) : Value :=
  iterateStringFields redactorCallback config

/-! ## Display redaction of `gendexcfg` (lines 187-202) -/

/-- The loop `for key := range mappings` (lines 192-196): the value under the key `secret`
is overwritten by the string of six stars, whatever it was. -/
def maskSecretFields : List (String × Value) → List (String × Value)
  | [] => []
  | (key, val) :: rest =>
      (key, if key = "secret" then Value.str "******" else val) :: maskSecretFields rest

/-- The loop `for i := range staticClients` (lines 189-199): only elements that are maps are
touched. -/
def maskStaticClients : List Value → List Value
  | [] => []
  | Value.map mappings :: rest => Value.map (maskSecretFields mappings) :: maskStaticClients rest
  | staticClient :: rest => staticClient :: maskStaticClients rest

/-- One iteration of the loop over `staticClients` (lines 190-198). -/
def maskStaticClient : Value → Value
  | Value.map mappings => Value.map (maskSecretFields mappings)
  | staticClient => staticClient

/-- The Go assignment `m[k] = v` on a map held as a list of entries. -/
def setKey (k : String) (v : Value) : List (String × Value) → List (String × Value)
  | [] => [(k, v)]
  | (k', v') :: rest => if k' = k then (k', v) :: rest else (k', v') :: setKey k v rest

/-- The document `gendexcfg` prints when no output file is given (lines 187-202): `dexCfg`
after the masking of `staticClients`. -/
def maskedDexCfg (dexCfg : List (String × Value)) : List (String × Value) :=
  match dexCfg.lookup "staticClients" with
  | some (Value.seq staticClients) =>
      setKey "staticClients" (Value.seq (maskStaticClients staticClients)) dexCfg
  | _ => dexCfg

/-! ## Specification vocabulary for trees -/

/-- One step of a path into a tree: a map key or a sequence index. -/
inductive Step where
  | key (k : String) : Step
  | idx (i : Nat) : Step

/-- What can be observed of a single node: a scalar with its content, the length of a
sequence, the key list of a map. -/
inductive Kind where
  | null : Kind
  | bool (b : Bool) : Kind
  | num (n : Int) : Kind
  | str (s : String) : Kind
  | seq (len : Nat) : Kind
  | map (keys : List String) : Kind
deriving DecidableEq

/-- The observation of a node. -/
def Value.kind : Value → Kind
  | Value.null => Kind.null
  | Value.bool b => Kind.bool b
  | Value.num n => Kind.num n
  | Value.str s => Kind.str s
  | Value.seq xs => Kind.seq xs.length
  | Value.map kvs => Kind.map (kvs.map Prod.fst)

/-- The child of a node along one step. -/
def Value.child : Value → Step → Option Value
  | Value.map kvs, Step.key k => kvs.lookup k
  | Value.seq xs, Step.idx i => xs[i]?
  | _, _ => none

/-- The node at the end of a path, if the path exists in the tree. -/
def Value.get? : Value → List Step → Option Value
  | v, [] => some v
  | v, s :: p => match v.child s with
    | some u => u.get? p
    | none => none

/-- The map key of a step, if it is one. -/
def stepKey : Step → Option String
  | Step.key k => some k
  | Step.idx _ => none

/-- The key under which the node at the end of a path is stored, when its immediate parent is
a map. -/
def parentKey (p : List Step) : Option String :=
  p.getLast?.bind stepKey

/-- What the walk must leave to be observed at a node found at the end of path `p`: a
string stored directly under a map key `k` becomes `cb k s`, everything else keeps its
kind. -/
def expectedKind (cb : String → String → String) (p : List Step) : Value → Kind
  | Value.str s => match parentKey p with
    | some k => Kind.str (cb k s)
    | none => Kind.str s
  | u => u.kind

/-- The key context the walk has after following a path, starting from context `ctx`. -/
def ctxAfter (ctx : Option String) : List Step → Option String
  | [] => ctx
  | s :: p => ctxAfter (stepKey s) p

/-- What the walk leaves in place of a node it reaches as the value of the map key `ctx`
(or with no key, for the root and for sequence elements). -/
def rewriteUnder (cb : String → String → String) : Option String → Value → Value
  | some k, Value.str s => Value.str (cb k s)
  | _, v => iterateStringFields cb v

/-- The path of a `secret` field of an element of the top-level `staticClients` sequence. -/
def secretFieldPath : List Step → Bool
  | [Step.key a, Step.idx _, Step.key b] => decide (a = "staticClients") && decide (b = "secret")
  | _ => false

/-- A path that goes strictly below such a `secret` field. -/
def belowSecretField : List Step → Bool
  | Step.key a :: Step.idx _ :: Step.key b :: _ :: _ =>
      decide (a = "staticClients") && decide (b = "secret")
  | _ => false

/-- Inside one client: the path of its `secret` field. -/
def secretKeyPath : List Step → Bool
  | [Step.key b] => decide (b = "secret")
  | _ => false

/-- Inside one client: a path strictly below its `secret` field. -/
def belowSecretKey : List Step → Bool
  | Step.key b :: _ :: _ => decide (b = "secret")
  | _ => false

mutual
/-- Two trees are identical except for the string values stored directly under the keys
`clientSecret`, `secret` or `bindPW`. -/
def sameExceptSecrets : Value → Value → Bool
  | Value.map kvs, Value.map kvs' => sameFieldsExceptSecrets kvs kvs'
  | Value.seq xs, Value.seq ys => sameElemsExceptSecrets xs ys
  | Value.str s, Value.str t => decide (s = t)
  | Value.num n, Value.num m => decide (n = m)
  | Value.bool b, Value.bool c => decide (b = c)
  | Value.null, Value.null => true
  | _, _ => false
/-- The fields of two maps agree except for secret strings. -/
def sameFieldsExceptSecrets : List (String × Value) → List (String × Value) → Bool
  | [], [] => true
  | (k, Value.str s) :: rest, (k', Value.str t) :: rest' =>
      decide (k = k') &&
      (decide (k = "clientSecret" ∨ k = "secret" ∨ k = "bindPW") || decide (s = t)) &&
      sameFieldsExceptSecrets rest rest'
  | (k, v) :: rest, (k', v') :: rest' =>
      decide (k = k') && sameExceptSecrets v v' && sameFieldsExceptSecrets rest rest'
  | _, _ => false
/-- The elements of two sequences agree except for secret strings. -/
def sameElemsExceptSecrets : List Value → List Value → Bool
  | [], [] => true
  | x :: rest, y :: rest' => sameExceptSecrets x y && sameElemsExceptSecrets rest rest'
  | _, _ => false
end

/-- The callback the general routine would need for display redaction: six stars when the
field name is `secret`, the original value otherwise. -/
def dumpCallback (name val : String) : String :=
  if name = "secret" then "******" else val

/-- Display redaction as an instance of the general routine: `iterateStringFields` with
`dumpCallback` applied to the value under the top-level `staticClients` key, the rest of the
document untouched. -/
def maskedViaIterate (dexCfg : List (String × Value)) : List (String × Value) :=
  match dexCfg.lookup "staticClients" with
  | some staticClients =>
      setKey "staticClients" (iterateStringFields dumpCallback staticClients) dexCfg
  | none => dexCfg

mutual
/-- Some map inside the tree, at any depth, stores a string under the key `secret`. -/
def holdsSecretString : Value → Bool
  | Value.map kvs => fieldsHoldSecretString kvs
  | Value.seq xs => elemsHoldSecretString xs
  | _ => false
/-- Some field of the map, or something below it, is a string stored under `secret`. -/
def fieldsHoldSecretString : List (String × Value) → Bool
  | [] => false
  | (k, Value.str _) :: rest => decide (k = "secret") || fieldsHoldSecretString rest
  | (_, v) :: rest => holdsSecretString v || fieldsHoldSecretString rest
/-- Some element of the sequence holds a string stored under `secret`. -/
def elemsHoldSecretString : List Value → Bool
  | [] => false
  | x :: rest => holdsSecretString x || elemsHoldSecretString rest
end

/-- The fields of a client on which the two redactions agree: a string field, or a field
other than `secret` with no string stored under `secret` below it. -/
def flatClientFields : List (String × Value) → Bool
  | [] => true
  | (_, Value.str _) :: rest => flatClientFields rest
  | (k, v) :: rest => !decide (k = "secret") && !holdsSecretString v && flatClientFields rest

/-- Every map element of the sequence has such fields only, and no other element holds a
string stored under `secret`. -/
def flatClients : List Value → Bool
  | [] => true
  | Value.map mappings :: rest => flatClientFields mappings && flatClients rest
  | x :: rest => !holdsSecretString x && flatClients rest

/-- The documents on which the hand-written masking and the general routine agree: below
`staticClients`, strings stored under `secret` occur only as direct fields of the map
elements of the sequence, and a `secret` field of such an element is a string. -/
def dumpScoped (dexCfg : List (String × Value)) : Bool :=
  match dexCfg.lookup "staticClients" with
  | some (Value.seq staticClients) => flatClients staticClients
  | some v => !holdsSecretString v
  | none => true

/-! ## Example documents -/

/-- The display-redaction scenario of the specification. -/
def specExample : List (String × Value) :=
  [("staticClients", Value.seq
    [Value.map [("id", Value.str "x"), ("secret", Value.str "abc")],
     Value.map [("id", Value.str "y"), ("secret", Value.str "def")]])]

/-- Its expected output. -/
def specExampleMasked : List (String × Value) :=
  [("staticClients", Value.seq
    [Value.map [("id", Value.str "x"), ("secret", Value.str "******")],
     Value.map [("id", Value.str "y"), ("secret", Value.str "******")]])]

/-- A client whose secret is written as a number (YAML `secret: 12345`). -/
def numericSecret : List (String × Value) :=
  [("staticClients", Value.seq [Value.map [("id", Value.str "x"), ("secret", Value.num 12345)]])]

/-- A client with a `secret` string one level further down. -/
def nestedSecret : List (String × Value) :=
  [("staticClients", Value.seq
    [Value.map [("id", Value.str "x"), ("extra", Value.map [("secret", Value.str "abc")])]])]

/-- The log-redaction scenario of the specification. -/
def connectorsExample : Value :=
  Value.map [("connectors", Value.seq
    [Value.map [("config", Value.map [("bindPW", Value.str "hunter2")])]])]

/-- Its expected output. -/
def connectorsRedacted : Value :=
  Value.map [("connectors", Value.seq
    [Value.map [("config", Value.map [("bindPW", Value.str "********")])]])]

/-- A config with secrets at several depths. -/
def secretsA : Value :=
  Value.map [("issuer", Value.str "https://argocd/api/dex"),
    ("staticClients", Value.seq [Value.map [("id", Value.str "cli"), ("secret", Value.str "s1")]]),
    ("connectors", Value.seq [Value.map [("config",
      Value.map [("clientSecret", Value.str "c1"), ("bindPW", Value.str "p1"),
        ("port", Value.num 389)])]])]

/-- The same config with every secret changed. -/
def secretsB : Value :=
  Value.map [("issuer", Value.str "https://argocd/api/dex"),
    ("staticClients", Value.seq [Value.map [("id", Value.str "cli"), ("secret", Value.str "s2")]]),
    ("connectors", Value.seq [Value.map [("config",
      Value.map [("clientSecret", Value.str "c2"), ("bindPW", Value.str "p2"),
        ("port", Value.num 389)])]])]

/-! ## The supervisor loop of `rundex` (lines 103-143) -/

/-- The rendered dex configuration: a byte sequence, compared with `bytes.Equal` and tested
with `len(..) == 0`. -/
abbrev Bytes := List Nat

/-- The operations of the loop that return an error value. -/
inductive Op (σ : Type) where
  | render (settings : σ) : Op σ
  | writeFile (dexCfgBytes : Bytes) : Op σ
  | redact (dexCfgBytes : Bytes) : Op σ
  | start : Op σ
  | signal (proc : Nat) : Op σ
  | wait (proc : Nat) : Op σ
deriving DecidableEq

/-- What the loop does, in order. Every event but the last records a completed action;
`failed op` records the operation whose error ended the run. -/
inductive Event (σ : Type) where
  | received (newSettings : σ) : Event σ
  | rendered (settings : σ) (dexCfgBytes : Bytes) : Event σ
  | logInfo (msg : String) : Event σ
  | wroteFile (dexCfgBytes : Bytes) : Event σ
  | logDebug (dexCfgBytes : Bytes) : Event σ
  | started (proc : Nat) : Event σ
  | signalled (proc : Nat) : Event σ
  | waited (proc : Nat) : Event σ
  | failed (op : Op σ) : Event σ
deriving DecidableEq

/-- The collaborators of the loop, as oracles that may depend on everything that happened
before: `render` is `dex.GenerateDexConfigYAML` (`none` is an error), `succeeds` tells
whether `os.WriteFile`, `redactor`, `cmd.Start`, `Process.Signal` and `Process.Wait` return
without error. -/
structure Env (σ : Type) where
  render : List (Event σ) → σ → Option Bytes
  succeeds : List (Event σ) → Op σ → Bool

/-- The variables of the loop while it blocks on `<-updateCh` (line 127), with the trace so
far. `cmd` holds the handle of the process started in this round, if any; a handle is named
by the position of its start in the trace. -/
structure Sup (σ : Type) where
  prevSettings : σ
  dexCfgBytes : Bytes
  cmd : Option Nat
  trace : List (Event σ)
deriving DecidableEq

/-- The same variables after some more events. -/
def Sup.logged {σ : Type} (st : Sup σ) (events : List (Event σ)) : Sup σ :=
  ⟨st.prevSettings, st.dexCfgBytes, st.cmd, st.trace ++ events⟩

/-- How far a run got on the updates it was given: blocked on the channel, or ended by a
fatal error. -/
inductive Outcome (σ : Type) where
  | waiting (st : Sup σ) : Outcome σ
  | fatal (trace : List (Event σ)) : Outcome σ
deriving DecidableEq

/-- The trace of a run. -/
def Outcome.trace {σ : Type} : Outcome σ → List (Event σ)
  | Outcome.waiting st => st.trace
  | Outcome.fatal tr => tr

/-- Modelled from the spec: `errors.CheckError` (package `util/errors`, not among the
sources). An error from rendering, persisting, spawning, signalling or waiting is fatal to
the whole loop and nothing is retried; without an error the loop goes on. -/
def CheckError {σ : Type} (ok : Bool) (trace : List (Event σ)) (op : Op σ)
    (next : Outcome σ) : Outcome σ :=
  if ok then next else Outcome.fatal (trace ++ [Event.failed op])

/-- The head of the outer loop (lines 109-123): render `prevSettings`; an empty document is
only logged, a non-empty one is written to `/tmp/dex.yaml`, logged redacted, and dex is
started on it. -/
def renderAndStart {σ : Type} (env : Env σ) (prevSettings : σ) (tr0 : List (Event σ)) :
    Outcome σ :=
  match env.render tr0 prevSettings with
  | none => Outcome.fatal (tr0 ++ [Event.failed (Op.render prevSettings)])
  | some dexCfgBytes =>
    let tr1 := tr0 ++ [Event.rendered prevSettings dexCfgBytes]
    if dexCfgBytes.length = 0 then
      Outcome.waiting ⟨prevSettings, dexCfgBytes, none,
        tr1 ++ [Event.logInfo "dex is not configured"]⟩
    else
      CheckError (env.succeeds tr1 (Op.writeFile dexCfgBytes)) tr1 (Op.writeFile dexCfgBytes) <|
      let tr2 := tr1 ++ [Event.wroteFile dexCfgBytes]
      CheckError (env.succeeds tr2 (Op.redact dexCfgBytes)) tr2 (Op.redact dexCfgBytes) <|
      let tr3 := tr2 ++ [Event.logDebug dexCfgBytes]
      CheckError (env.succeeds tr3 Op.start) tr3 Op.start <|
      Outcome.waiting ⟨prevSettings, dexCfgBytes, some tr3.length,
        tr3 ++ [Event.started tr3.length]⟩

/-- The shutdown of the running process (lines 133-138): with a process handle, send SIGTERM
and wait for the exit; then go on with `next`. -/
def terminate {σ : Type} (env : Env σ) (cmd : Option Nat) (tr0 : List (Event σ))
    (next : List (Event σ) → Outcome σ) : Outcome σ :=
  match cmd with
  | some proc =>
    CheckError (env.succeeds tr0 (Op.signal proc)) tr0 (Op.signal proc) <|
    let tr1 := tr0 ++ [Event.signalled proc]
    CheckError (env.succeeds tr1 (Op.wait proc)) tr1 (Op.wait proc) <|
    next (tr1 ++ [Event.waited proc])
  | none => next tr0

/-- One round of the inner loop (lines 127-141): receive a snapshot, render it, and either
log that nothing changed or shut the process down and go back to the head of the outer loop
with the new snapshot. -/
def onUpdate {σ : Type} (env : Env σ) (st : Sup σ) (newSettings : σ) : Outcome σ :=
  let tr0 := st.trace ++ [Event.received newSettings]
  match env.render tr0 newSettings with
  | none => Outcome.fatal (tr0 ++ [Event.failed (Op.render newSettings)])
  | some newDexCfgBytes =>
    let tr1 := tr0 ++ [Event.rendered newSettings newDexCfgBytes]
    if newDexCfgBytes ≠ st.dexCfgBytes then
      let tr2 := tr1 ++ [Event.logInfo "dex config modified. restarting dex"]
      terminate env st.cmd tr2 (renderAndStart env newSettings)
    else
      Outcome.waiting (st.logged [Event.received newSettings,
        Event.rendered newSettings newDexCfgBytes, Event.logInfo "dex config unmodified"])

/-- The loop fed with the snapshots that arrive on `updateCh`; it blocks when they run out
and does nothing more after a fatal error. -/
def superviseFrom {σ : Type} (env : Env σ) : Outcome σ → List σ → Outcome σ
  | o, [] => o
  | Outcome.waiting st, newSettings :: updates =>
      superviseFrom env (onUpdate env st newSettings) updates
  | Outcome.fatal tr, _ :: _ => Outcome.fatal tr

/-- The loop of `rundex` from the initial settings (lines 103-143). -/
def rundex {σ : Type} (env : Env σ) (prevSettings : σ) (updates : List σ) : Outcome σ :=
  superviseFrom env (renderAndStart env prevSettings []) updates

/-! ## Specification vocabulary for runs -/

/-- A restart as the specification describes it: terminate the running process if there is
one and re-enter the render/start step with the new snapshot. -/
def restart {σ : Type} (env : Env σ) (st : Sup σ) (newSettings : σ) (newDexCfgBytes : Bytes) :
    Outcome σ :=
  terminate env st.cmd
    (st.trace ++ [Event.received newSettings, Event.rendered newSettings newDexCfgBytes,
      Event.logInfo "dex config modified. restarting dex"])
    (renderAndStart env newSettings)

/-- The self-loop of the specification: stay in the current state and log "unmodified". -/
def unmodified {σ : Type} (st : Sup σ) (newSettings : σ) (newDexCfgBytes : Bytes) : Outcome σ :=
  Outcome.waiting (st.logged [Event.received newSettings,
    Event.rendered newSettings newDexCfgBytes, Event.logInfo "dex config unmodified"])

/-- The events of a completed shutdown of the process `cmd`, if there is one. -/
def stopEvents {σ : Type} : Option Nat → List (Event σ)
  | some proc => [Event.signalled proc, Event.waited proc]
  | none => []

/-- The events that follow a render of `dexCfgBytes` when nothing fails. -/
def startEvents {σ : Type} (dexCfgBytes : Bytes) (proc : Nat) : List (Event σ) :=
  if dexCfgBytes.length = 0 then [Event.logInfo "dex is not configured"]
  else [Event.wroteFile dexCfgBytes, Event.logDebug dexCfgBytes, Event.started proc]

/-- Rendering is deterministic: the document depends on the snapshot only. -/
def Deterministic {σ : Type} (env : Env σ) : Prop :=
  ∀ (h h' : List (Event σ)) (s : σ), env.render h s = env.render h' s

/-- The snapshot received last, or the initial one. -/
def latestSettings {σ : Type} (prevSettings : σ) : List σ → σ
  | [] => prevSettings
  | newSettings :: updates => latestSettings newSettings updates

/-- What a trace leaves behind: the contents of `/tmp/dex.yaml` and the processes that were
started and not yet waited for, each with the file contents it was started on. -/
structure World where
  file : Option Bytes
  live : List (Nat × Option Bytes)
deriving DecidableEq

/-- The effect of one event on the world. -/
def observeStep {σ : Type} (w : World) : Event σ → World
  | Event.wroteFile d => ⟨some d, w.live⟩
  | Event.started proc => ⟨w.file, w.live ++ [(proc, w.file)]⟩
  | Event.waited proc => ⟨w.file, w.live.filter (fun q => q.1 ≠ proc)⟩
  | _ => w

/-- The world after a trace. -/
def observe {σ : Type} (tr : List (Event σ)) : World :=
  tr.foldl observeStep ⟨none, []⟩

/-- The life of the single managed process. -/
inductive Phase where
  | idle : Phase
  | running (proc : Nat) : Phase
  | stopping (proc : Nat) : Phase
deriving DecidableEq

/-- The lifecycle monitor: a start is allowed only when no process is managed, a signal only
to the running process, a wait only for the process that was signalled; `none` is a
violation. -/
def lifeStep {σ : Type} : Option Phase → Event σ → Option Phase
  | some Phase.idle, Event.started proc => some (Phase.running proc)
  | _, Event.started _ => none
  | some (Phase.running p), Event.signalled proc =>
      if proc = p then some (Phase.stopping p) else none
  | _, Event.signalled _ => none
  | some (Phase.stopping p), Event.waited proc => if proc = p then some Phase.idle else none
  | _, Event.waited _ => none
  | ph, _ => ph

/-- The phase a trace ends in, or `none` if it violates the lifecycle. -/
def lifecycle {σ : Type} (tr : List (Event σ)) : Option Phase :=
  tr.foldl lifeStep (some Phase.idle)

/-- The phase that goes with the loop variable `cmd`. -/
def phaseOf : Option Nat → Phase
  | some proc => Phase.running proc
  | none => Phase.idle

/-- The live processes that go with the loop variables `cmd` and `dexCfgBytes`. -/
def liveOf (cmd : Option Nat) (dexCfgBytes : Bytes) : List (Nat × Option Bytes) :=
  match cmd with
  | some proc => [(proc, some dexCfgBytes)]
  | none => []

/-- The environment reported an error for `op` after the trace `tr`. -/
def failedAt {σ : Type} (env : Env σ) (tr : List (Event σ)) : Op σ → Bool
  | Op.render s => (env.render tr s).isNone
  | op => !env.succeeds tr op

/-- The event `e` records what the environment answered after the trace `pre`. -/
def approved {σ : Type} (env : Env σ) (pre : List (Event σ)) : Event σ → Bool
  | Event.failed op => failedAt env pre op
  | Event.rendered s d => decide (env.render pre s = some d)
  | Event.wroteFile d => env.succeeds pre (Op.writeFile d)
  | Event.logDebug d => env.succeeds pre (Op.redact d)
  | Event.started _ => env.succeeds pre Op.start
  | Event.signalled proc => env.succeeds pre (Op.signal proc)
  | Event.waited proc => env.succeeds pre (Op.wait proc)
  | _ => true

/-- At every point of the trace at most one process is live. -/
def AtMostOneLive {σ : Type} (tr : List (Event σ)) : Prop :=
  ∀ pre, pre <+: tr → (observe pre).live.length ≤ 1

/-- Every event of the trace records the answer of the environment. -/
def AllApproved {σ : Type} (env : Env σ) (tr : List (Event σ)) : Prop :=
  ∀ pre e, pre ++ [e] <+: tr → approved env pre e = true

/-- The bound on live processes along a continuation of a trace. -/
def LiveFrom {σ : Type} (w : World) : List (Event σ) → Prop
  | [] => True
  | e :: evs => (observeStep w e).live.length ≤ 1 ∧ LiveFrom (observeStep w e) evs

/-- The answers of the environment along a continuation of a trace. -/
def ApprovedFrom {σ : Type} (env : Env σ) (tr : List (Event σ)) : List (Event σ) → Prop
  | [] => True
  | e :: evs => approved env tr e = true ∧ ApprovedFrom env (tr ++ [e]) evs

/-- No failure is recorded in the trace. -/
def Clean {σ : Type} (tr : List (Event σ)) : Prop :=
  ∀ op, Event.failed op ∉ tr

/-- The invariant of the loop at its blocking point. -/
structure Inv {σ : Type} (env : Env σ) (st : Sup σ) : Prop where
  phase : lifecycle st.trace = some (phaseOf st.cmd)
  live : (observe st.trace).live = liveOf st.cmd st.dexCfgBytes
  file : ∀ proc, st.cmd = some proc → (observe st.trace).file = some st.dexCfgBytes
  running : st.cmd.isSome = true ↔ st.dexCfgBytes ≠ []
  bounded : AtMostOneLive st.trace
  approved : AllApproved env st.trace
  clean : Clean st.trace

/-- The invariant of a run, blocked or ended. -/
def Good {σ : Type} (env : Env σ) : Outcome σ → Prop
  | Outcome.waiting st => Inv env st
  | Outcome.fatal tr =>
      lifecycle tr ≠ none ∧ AtMostOneLive tr ∧ AllApproved env tr ∧
        ∃ pre op, tr = pre ++ [Event.failed op] ∧ Clean pre

/-- An environment in which nothing fails; snapshot 0 renders to the empty document,
snapshots 2 and 3 to the same document, snapshot 4 to another one. -/
def exampleEnv : Env Nat :=
  ⟨fun _ s => some (if s = 0 then [] else [100 + s / 2]), fun _ _ => true⟩

/-- An environment in which starting dex fails. -/
def startFailsEnv : Env Nat :=
  ⟨fun _ s => some [s], fun _ op => decide (op ≠ Op.start)⟩

/-- The run of `exampleEnv` from snapshot 2, blocked after the initial start. -/
def bootedOn2 : Sup Nat :=
  ⟨2, [101], some 3,
    [Event.rendered 2 [101], Event.wroteFile [101], Event.logDebug [101], Event.started 3]⟩

/-- The same run after the update to snapshot 4, whose rendering differs. -/
def restartedOn4 : Sup Nat :=
  ⟨4, [102], some 12,
    [Event.rendered 2 [101], Event.wroteFile [101], Event.logDebug [101], Event.started 3,
      Event.received 4, Event.rendered 4 [102],
      Event.logInfo "dex config modified. restarting dex", Event.signalled 3, Event.waited 3,
      Event.rendered 4 [102], Event.wroteFile [102], Event.logDebug [102], Event.started 12]⟩

/-- The run of `exampleEnv` from the unconfigured snapshot 0 after the update to
snapshot 2. -/
def configuredLater : Sup Nat :=
  ⟨2, [101], some 8,
    [Event.rendered 0 [], Event.logInfo "dex is not configured",
      Event.received 2, Event.rendered 2 [101],
      Event.logInfo "dex config modified. restarting dex",
      Event.rendered 2 [101], Event.wroteFile [101], Event.logDebug [101], Event.started 8]⟩

/-- The trace at the point where an update whose rendering `newDexCfgBytes` differs has been
logged as modified and the shutdown of the running process is about to begin. -/
def modifiedAt {σ : Type} (st : Sup σ) (newSettings : σ) (newDexCfgBytes : Bytes) :
    List (Event σ) :=
  st.trace ++ [Event.received newSettings, Event.rendered newSettings newDexCfgBytes,
    Event.logInfo "dex config modified. restarting dex"]

/-- The environment lets the shutdown of `cmd` begun after the trace `h` go through: with a
process handle, both the signal and the wait return without error. -/
def StopSucceeds {σ : Type} (env : Env σ) (cmd : Option Nat) (h : List (Event σ)) : Prop :=
  match cmd with
  | some proc =>
      env.succeeds h (Op.signal proc) = true ∧
      env.succeeds (h ++ [Event.signalled proc]) (Op.wait proc) = true
  | none => True

/-- The run on the updates `us` ends in the render/start step for the snapshot `s`, entered
after the trace `h`: either at the very beginning, or because the last update `s` rendered to
a document that differs from the retained one and the shutdown went through. Stated with the
answers of the environment only. -/
def EntersStart {σ : Type} (env : Env σ) (init : σ) (us : List σ) (s : σ)
    (h : List (Event σ)) : Prop :=
  (us = [] ∧ s = init ∧ h = []) ∨
  ∃ (us' : List σ) (st : Sup σ) (d : Bytes),
    us = us' ++ [s] ∧ rundex env init us' = Outcome.waiting st ∧
    env.render (st.trace ++ [Event.received s]) s = some d ∧ d ≠ st.dexCfgBytes ∧
    StopSucceeds env st.cmd (modifiedAt st s d) ∧
    h = modifiedAt st s d ++ stopEvents st.cmd

/-- An environment in which rendering snapshot 7 fails. -/
def renderFailsEnv : Env Nat :=
  ⟨fun _ s => if s = 7 then none else some [s], fun _ _ => true⟩

/-- The run of `renderFailsEnv` from snapshot 1, blocked after the initial start. -/
def bootedOn1 : Sup Nat :=
  ⟨1, [1], some 3,
    [Event.rendered 1 [1], Event.wroteFile [1], Event.logDebug [1], Event.started 3]⟩

/-! ## Lemmas about the tree walk -/

theorem iterateFields_lookup (cb : String → String → String) (k : String) :
    ∀ kvs : List (String × Value),
      (iterateFields cb kvs).lookup k = (kvs.lookup k).map (rewriteUnder cb (some k))
  | [] => rfl
  | (f, v) :: rest => by
    have ih := iterateFields_lookup cb k rest
    by_cases h : k = f
    · subst h
      cases v <;> simp [iterateFields, List.lookup, rewriteUnder]
    · have h' : (k == f) = false := by simpa using h
      cases v <;> simp [iterateFields, List.lookup, h', ih]

theorem iterateElems_getElem? (cb : String → String → String) :
    ∀ (xs : List Value) (i : Nat),
      (iterateElems cb xs)[i]? = (xs[i]?).map (iterateStringFields cb)
  | [], i => by simp [iterateElems]
  | x :: rest, 0 => by simp [iterateElems]
  | x :: rest, i + 1 => by simpa [iterateElems] using iterateElems_getElem? cb rest i

theorem iterateFields_keys (cb : String → String → String) :
    ∀ kvs : List (String × Value), (iterateFields cb kvs).map Prod.fst = kvs.map Prod.fst
  | [] => rfl
  | (f, v) :: rest => by
    have ih := iterateFields_keys cb rest
    cases v <;> simp [iterateFields, ih]

theorem iterateElems_length (cb : String → String → String) :
    ∀ xs : List Value, (iterateElems cb xs).length = xs.length
  | [] => rfl
  | x :: rest => by simp [iterateElems, iterateElems_length cb rest]


theorem rewriteUnder_none (cb : String → String → String) (v : Value) :
    rewriteUnder cb none v = iterateStringFields cb v := by
  cases v <;> rfl

theorem rewriteUnder_child (cb : String → String → String) (ctx : Option String)
    (v : Value) (s : Step) :
    (rewriteUnder cb ctx v).child s = (v.child s).map (rewriteUnder cb (stepKey s)) := by
  cases v <;> cases s <;> cases ctx <;>
    simp [rewriteUnder, iterateStringFields, Value.child, stepKey, iterateFields_lookup,
      iterateElems_getElem?]
  all_goals (congr 1)

theorem ctxAfter_cons (ctx : Option String) (s : Step) :
    ∀ (p : List Step), ctxAfter ctx (s :: p) = parentKey (s :: p)
  | [] => by simp [ctxAfter, parentKey]
  | t :: p => by
    have ih := ctxAfter_cons (stepKey s) t p
    simp only [ctxAfter] at ih ⊢
    rw [ih]
    simp [parentKey, List.getLast?_cons_cons]

theorem ctxAfter_none : ∀ (p : List Step), ctxAfter none p = parentKey p
  | [] => rfl
  | s :: p => ctxAfter_cons none s p

theorem rewriteUnder_kind (cb : String → String → String) (p : List Step) (u : Value) :
    (rewriteUnder cb (parentKey p) u).kind = expectedKind cb p u := by
  cases u <;> cases h : parentKey p <;>
    simp [rewriteUnder, expectedKind, h, iterateStringFields, Value.kind,
      iterateFields_keys, iterateElems_length]


theorem rewriteUnder_get? (cb : String → String → String) :
    ∀ (p : List Step) (ctx : Option String) (v : Value),
      (rewriteUnder cb ctx v).get? p = (v.get? p).map (rewriteUnder cb (ctxAfter ctx p))
  | [], ctx, v => by simp [Value.get?, ctxAfter]
  | s :: p, ctx, v => by
    simp only [Value.get?, rewriteUnder_child, ctxAfter]
    cases h : v.child s with
    | none => simp
    | some u => simpa using rewriteUnder_get? cb p (stepKey s) u


theorem iterateStringFields_kind_at (callback : String → String → String) (v : Value)
    (p : List Step) :
    ((iterateStringFields callback v).get? p).map Value.kind
      = (v.get? p).map (expectedKind callback p) := by
  have h := rewriteUnder_get? callback p none v
  rw [rewriteUnder_none, ctxAfter_none] at h
  rw [h, Option.map_map]
  congr 1
  funext u
  exact rewriteUnder_kind callback p u

mutual
theorem redact_eq_of_same : ∀ (v w : Value), sameExceptSecrets v w = true →
    iterateStringFields redactorCallback v = iterateStringFields redactorCallback w
  | Value.map kvs, Value.map kvs', h => by
    simp only [sameExceptSecrets] at h
    simp only [iterateStringFields, redactFields_eq_of_same kvs kvs' h]
  | Value.seq xs, Value.seq ys, h => by
    simp only [sameExceptSecrets] at h
    simp only [iterateStringFields, redactElems_eq_of_same xs ys h]
  | Value.str s, w, h => by
    cases w <;> simp_all [sameExceptSecrets]
  | Value.num s, w, h => by
    cases w <;> simp_all [sameExceptSecrets]
  | Value.bool s, w, h => by
    cases w <;> simp_all [sameExceptSecrets]
  | Value.null, w, h => by
    cases w <;> simp_all [sameExceptSecrets]
  | Value.map kvs, Value.seq _, h => by simp [sameExceptSecrets] at h
  | Value.map kvs, Value.str _, h => by simp [sameExceptSecrets] at h
  | Value.map kvs, Value.num _, h => by simp [sameExceptSecrets] at h
  | Value.map kvs, Value.bool _, h => by simp [sameExceptSecrets] at h
  | Value.map kvs, Value.null, h => by simp [sameExceptSecrets] at h
  | Value.seq kvs, Value.map _, h => by simp [sameExceptSecrets] at h
  | Value.seq kvs, Value.str _, h => by simp [sameExceptSecrets] at h
  | Value.seq kvs, Value.num _, h => by simp [sameExceptSecrets] at h
  | Value.seq kvs, Value.bool _, h => by simp [sameExceptSecrets] at h
  | Value.seq kvs, Value.null, h => by simp [sameExceptSecrets] at h
theorem redactFields_eq_of_same : ∀ (kvs kvs' : List (String × Value)),
    sameFieldsExceptSecrets kvs kvs' = true →
    iterateFields redactorCallback kvs = iterateFields redactorCallback kvs'
  | [], [], _ => rfl
  | [], _ :: _, h => by simp [sameFieldsExceptSecrets] at h
  | _ :: _, [], h => by simp [sameFieldsExceptSecrets] at h
  | (k, v) :: rest, (k', v') :: rest', h => by
    cases v <;> cases v' <;>
      simp only [sameFieldsExceptSecrets, Bool.and_eq_true, decide_eq_true_eq,
        Bool.or_eq_true] at h <;>
      obtain ⟨⟨hk, hv⟩, hr⟩ := h <;>
      subst hk <;>
      have ih := redactFields_eq_of_same rest rest' hr <;>
      first
        | (simp [sameExceptSecrets] at hv; done)
        | (rcases hv with hv | hv
           · simp [iterateFields, ih, redactorCallback, hv]
           · simp [iterateFields, ih, hv])
        | (have hv' := redact_eq_of_same _ _ hv
           simp only [iterateStringFields] at hv'
           simp only [iterateFields, iterateStringFields, ih, hv'])
theorem redactElems_eq_of_same : ∀ (xs ys : List Value),
    sameElemsExceptSecrets xs ys = true →
    iterateElems redactorCallback xs = iterateElems redactorCallback ys
  | [], [], _ => rfl
  | [], _ :: _, h => by simp [sameElemsExceptSecrets] at h
  | _ :: _, [], h => by simp [sameElemsExceptSecrets] at h
  | x :: rest, y :: rest', h => by
    simp only [sameElemsExceptSecrets, Bool.and_eq_true] at h
    simp only [iterateElems, redact_eq_of_same x y h.1, redactElems_eq_of_same rest rest' h.2]
end


mutual
theorem iterate_dump_id : ∀ (v : Value), holdsSecretString v = false →
    iterateStringFields dumpCallback v = v
  | Value.map kvs, h => by
    simp only [holdsSecretString] at h
    simp only [iterateStringFields, iterateFields_dump_id kvs h]
  | Value.seq xs, h => by
    simp only [holdsSecretString] at h
    simp only [iterateStringFields, iterateElems_dump_id xs h]
  | Value.str _, _ => rfl
  | Value.num _, _ => rfl
  | Value.bool _, _ => rfl
  | Value.null, _ => rfl
theorem iterateFields_dump_id : ∀ (kvs : List (String × Value)),
    fieldsHoldSecretString kvs = false → iterateFields dumpCallback kvs = kvs
  | [], _ => rfl
  | (k, v) :: rest, h => by
    cases v <;>
      simp only [fieldsHoldSecretString, Bool.or_eq_false_iff, decide_eq_false_iff_not] at h <;>
      have ih := iterateFields_dump_id rest h.2 <;>
      first
        | (have hv := iterate_dump_id _ h.1
           simp only [iterateStringFields] at hv
           simp only [iterateFields, iterateStringFields, ih, hv])
        | simp [iterateFields, ih, dumpCallback, h.1]
theorem iterateElems_dump_id : ∀ (xs : List Value),
    elemsHoldSecretString xs = false → iterateElems dumpCallback xs = xs
  | [], _ => rfl
  | x :: rest, h => by
    simp only [elemsHoldSecretString, Bool.or_eq_false_iff] at h
    simp only [iterateElems, iterate_dump_id x h.1, iterateElems_dump_id rest h.2]
end

theorem maskSecretFields_eq_iterate : ∀ (kvs : List (String × Value)),
    flatClientFields kvs = true → maskSecretFields kvs = iterateFields dumpCallback kvs
  | [], _ => rfl
  | (k, v) :: rest, h => by
    cases v <;> simp only [flatClientFields, Bool.and_eq_true, Bool.not_eq_true',
      decide_eq_false_iff_not] at h
    case str s =>
      have ih := maskSecretFields_eq_iterate rest h
      by_cases hk : k = "secret" <;> simp [maskSecretFields, iterateFields, dumpCallback, hk, ih]
    all_goals
      have ih := maskSecretFields_eq_iterate rest h.2
      have hv := iterate_dump_id _ h.1.2
      simp only [iterateStringFields] at hv
      simp [maskSecretFields, iterateFields, iterateStringFields, h.1.1, ih, hv]

theorem maskStaticClients_eq_iterate : ∀ (xs : List Value),
    flatClients xs = true → maskStaticClients xs = iterateElems dumpCallback xs
  | [], _ => rfl
  | x :: rest, h => by
    cases x <;> simp only [flatClients, Bool.and_eq_true, Bool.not_eq_true'] at h
    case map kvs =>
      simp [maskStaticClients, iterateElems, iterateStringFields,
        maskSecretFields_eq_iterate kvs h.1, maskStaticClients_eq_iterate rest h.2]
    all_goals
      have hv := iterate_dump_id _ h.1
      simp only [iterateStringFields] at hv
      simp [maskStaticClients, iterateElems, iterateStringFields,
        maskStaticClients_eq_iterate rest h.2, hv]

theorem setKey_lookup_self : ∀ (kvs : List (String × Value)) (k : String) (v : Value),
    kvs.lookup k = some v → setKey k v kvs = kvs
  | [], _, _, h => by simp at h
  | (k', v') :: rest, k, v, h => by
    by_cases hk : k' = k
    · subst hk
      simp [List.lookup] at h
      simp [setKey, h]
    · have hk' : (k == k') = false := by simpa using fun h => hk h.symm
      simp only [List.lookup, hk'] at h
      simp [setKey, hk, setKey_lookup_self rest k v h]

theorem maskedDexCfg_eq_iterate (dexCfg : List (String × Value))
    (h : dumpScoped dexCfg = true) : maskedDexCfg dexCfg = maskedViaIterate dexCfg := by
  unfold dumpScoped at h
  unfold maskedDexCfg maskedViaIterate
  cases hl : dexCfg.lookup "staticClients" with
  | none => rfl
  | some v =>
    rw [hl] at h
    cases v <;> simp only [Bool.not_eq_true'] at h
    case seq xs =>
      simp only [iterateStringFields, maskStaticClients_eq_iterate xs h]
    all_goals
      have hv := iterate_dump_id _ h
      simp only [hv, setKey_lookup_self _ _ _ hl]
  

theorem lookup_cons_self (k : String) (v : Value) (rest : List (String × Value)) :
    List.lookup k ((k, v) :: rest) = some v := by
  simp [List.lookup]

theorem lookup_cons_ne {k f : String} (h : k ≠ f) (v : Value) (rest : List (String × Value)) :
    List.lookup k ((f, v) :: rest) = List.lookup k rest := by
  have h' : (k == f) = false := by simpa using h
  simp [List.lookup, h']

theorem maskSecretFields_keys : ∀ (m : List (String × Value)),
    (maskSecretFields m).map Prod.fst = m.map Prod.fst
  | [] => rfl
  | (k, v) :: rest => by
    simp [maskSecretFields, maskSecretFields_keys rest]

theorem maskSecretFields_lookup (k : String) : ∀ (m : List (String × Value)),
    (maskSecretFields m).lookup k =
      if k = "secret" then (m.lookup k).map (fun _ => Value.str "******") else m.lookup k
  | [] => by simp [maskSecretFields]
  | (f, v) :: rest => by
    have ih := maskSecretFields_lookup k rest
    by_cases hk : k = f
    · subst hk
      by_cases hs : k = "secret" <;> simp [maskSecretFields, lookup_cons_self, hs]
    · simp only [maskSecretFields, lookup_cons_ne hk, ih]

theorem maskStaticClients_getElem? : ∀ (xs : List Value) (i : Nat),
    (maskStaticClients xs)[i]? = (xs[i]?).map maskStaticClient
  | [], i => by simp [maskStaticClients]
  | x :: rest, 0 => by cases x <;> simp [maskStaticClients, maskStaticClient]
  | x :: rest, i + 1 => by
    cases x <;> simpa [maskStaticClients] using maskStaticClients_getElem? rest i

theorem maskStaticClients_length : ∀ (xs : List Value),
    (maskStaticClients xs).length = xs.length
  | [] => rfl
  | x :: rest => by cases x <;> simp [maskStaticClients, maskStaticClients_length rest]

theorem setKey_lookup (k : String) (v : Value) (k' : String) :
    ∀ (kvs : List (String × Value)),
      (setKey k v kvs).lookup k' = if k' = k then some v else kvs.lookup k'
  | [] => by
    by_cases h : k' = k
    · simp [setKey, List.lookup, h]
    · have h' : (k' == k) = false := by simpa using h
      simp [setKey, List.lookup, h, h']
  | (f, w) :: rest => by
    have ih := setKey_lookup k v k' rest
    by_cases hf : f = k <;> by_cases hk : k' = k
    · subst hf; subst hk
      simp [setKey, List.lookup]
    · subst hf
      have h' : (k' == f) = false := by simpa using hk
      simp [setKey, List.lookup, hk, h']
    · subst hk
      have h' : (k' == f) = false := by simpa using fun h => hf h.symm
      simp [setKey, hf, List.lookup, h', ih]
    · simp only [setKey, hf, if_false, List.lookup, ih, hk]

theorem setKey_keys (k : String) (v : Value) :
    ∀ (kvs : List (String × Value)), (kvs.lookup k).isSome = true →
      (setKey k v kvs).map Prod.fst = kvs.map Prod.fst
  | [], h => by simp at h
  | (f, w) :: rest, h => by
    by_cases hf : f = k
    · simp [setKey, hf]
    · have h' : (k == f) = false := by simpa using fun h => hf h.symm
      simp only [List.lookup, h'] at h
      simp [setKey, hf, setKey_keys k v rest h]


theorem get?_str_cons (s : String) (t : Step) (r : List Step) :
    (Value.str s).get? (t :: r) = none := by
  cases t <;> simp [Value.get?, Value.child]

theorem maskStaticClient_frame (x : Value) (r : List Step) :
    ((maskStaticClient x).get? r).map Value.kind =
      if secretKeyPath r then (x.get? r).map (fun _ => Kind.str "******")
      else if belowSecretKey r then none
      else (x.get? r).map Value.kind := by
  cases r with
  | nil =>
    cases x <;> simp [maskStaticClient, Value.get?, secretKeyPath, belowSecretKey, Value.kind,
      maskSecretFields_keys]
  | cons t r' =>
    cases t with
    | idx i =>
      cases x <;> simp [maskStaticClient, Value.get?, Value.child, secretKeyPath, belowSecretKey]
    | key b =>
      cases x with
      | map m =>
        simp only [maskStaticClient, Value.get?, Value.child, maskSecretFields_lookup]
        by_cases hb : b = "secret"
        · subst hb
          cases r' with
          | nil =>
            cases h : List.lookup "secret" m <;>
              simp [secretKeyPath, Value.get?, Value.kind, h]
          | cons t2 r2 =>
            cases h : List.lookup "secret" m <;>
              simp [secretKeyPath, belowSecretKey, get?_str_cons, h]
        · cases r' <;> simp [hb, secretKeyPath, belowSecretKey]
      | _ =>
        cases r' <;>
          simp [maskStaticClient, Value.get?, Value.child, secretKeyPath, belowSecretKey]

theorem maskedDexCfg_lookup_other (dexCfg : List (String × Value)) (k : String)
    (hk : k ≠ "staticClients") : (maskedDexCfg dexCfg).lookup k = dexCfg.lookup k := by
  unfold maskedDexCfg
  split
  · simp [setKey_lookup, hk]
  · rfl

theorem maskedDexCfg_keys (dexCfg : List (String × Value)) :
    (maskedDexCfg dexCfg).map Prod.fst = dexCfg.map Prod.fst := by
  unfold maskedDexCfg
  split
  · next xs h => exact setKey_keys _ _ _ (by simp [h])
  · rfl

theorem maskedDexCfg_lookup_clients (dexCfg : List (String × Value)) :
    (maskedDexCfg dexCfg).lookup "staticClients" =
      match dexCfg.lookup "staticClients" with
      | some (Value.seq xs) => some (Value.seq (maskStaticClients xs))
      | other => other := by
  unfold maskedDexCfg
  split
  · next xs h => simp [setKey_lookup]
  · rfl


theorem get?_key (kvs : List (String × Value)) (k : String) (r : List Step) :
    (Value.map kvs).get? (Step.key k :: r) = (kvs.lookup k).bind (fun v => v.get? r) := by
  simp only [Value.get?, Value.child]
  cases kvs.lookup k <;> rfl

theorem get?_idx (xs : List Value) (i : Nat) (r : List Step) :
    (Value.seq xs).get? (Step.idx i :: r) = (xs[i]?).bind (fun v => v.get? r) := by
  simp only [Value.get?, Value.child]
  cases xs[i]? <;> rfl

theorem secretFieldPath_cons (a : String) (i : Nat) (r : List Step) :
    secretFieldPath (Step.key a :: Step.idx i :: r)
      = (decide (a = "staticClients") && secretKeyPath r) := by
  cases r with
  | nil => simp [secretFieldPath, secretKeyPath]
  | cons t r' =>
    cases t <;> cases r' <;> simp [secretFieldPath, secretKeyPath]

theorem belowSecretField_cons (a : String) (i : Nat) (r : List Step) :
    belowSecretField (Step.key a :: Step.idx i :: r)
      = (decide (a = "staticClients") && belowSecretKey r) := by
  cases r with
  | nil => simp [belowSecretField, belowSecretKey]
  | cons t r' =>
    cases t <;> cases r' <;> simp [belowSecretField, belowSecretKey]

theorem clients_frame (v : Value) (r : List Step) :
    ((match v with
        | Value.seq xs => Value.seq (maskStaticClients xs)
        | other => other).get? r).map Value.kind =
      if secretFieldPath (Step.key "staticClients" :: r) then
        (v.get? r).map (fun _ => Kind.str "******")
      else if belowSecretField (Step.key "staticClients" :: r) then none
      else (v.get? r).map Value.kind := by
  cases r with
  | nil => cases v <;> simp [Value.get?, Value.kind, secretFieldPath, belowSecretField,
      maskStaticClients_length]
  | cons t r' =>
    cases t with
    | key b =>
      cases v <;> cases r' <;>
        simp [Value.get?, Value.child, secretFieldPath, belowSecretField]
    | idx i =>
      rw [secretFieldPath_cons, belowSecretField_cons]
      simp only [decide_True, Bool.true_and]
      cases v with
      | seq xs =>
        simp only [get?_idx, maskStaticClients_getElem?]
        cases xs[i]? with
        | none => simp
        | some x => simpa using maskStaticClient_frame x r'
      | _ =>
        simp [Value.get?, Value.child]


theorem secretFieldPath_other (a : String) (r : List Step) (ha : a ≠ "staticClients") :
    secretFieldPath (Step.key a :: r) = false ∧ belowSecretField (Step.key a :: r) = false := by
  cases r with
  | nil => simp [secretFieldPath, belowSecretField]
  | cons t r' =>
    cases t with
    | key b => cases r' <;> simp [secretFieldPath, belowSecretField]
    | idx i => simp [secretFieldPath_cons, belowSecretField_cons, ha]
/-! ## Lemmas about the supervisor -/

@[simp] theorem Sup.logged_trace {σ : Type} (st : Sup σ) (evs : List (Event σ)) :
    (st.logged evs).trace = st.trace ++ evs := rfl

@[simp] theorem Sup.logged_cmd {σ : Type} (st : Sup σ) (evs : List (Event σ)) :
    (st.logged evs).cmd = st.cmd := rfl

@[simp] theorem Sup.logged_dexCfgBytes {σ : Type} (st : Sup σ) (evs : List (Event σ)) :
    (st.logged evs).dexCfgBytes = st.dexCfgBytes := rfl

@[simp] theorem Sup.logged_nil {σ : Type} (st : Sup σ) : st.logged [] = st := by
  cases st
  simp [Sup.logged]

@[simp] theorem Sup.logged_logged {σ : Type} (st : Sup σ) (a b : List (Event σ)) :
    (st.logged a).logged b = st.logged (a ++ b) := by
  simp [Sup.logged]


theorem observe_snoc {σ : Type} (tr : List (Event σ)) (e : Event σ) :
    observe (tr ++ [e]) = observeStep (observe tr) e := by
  simp [observe, List.foldl_append]

theorem lifecycle_snoc {σ : Type} (tr : List (Event σ)) (e : Event σ) :
    lifecycle (tr ++ [e]) = lifeStep (lifecycle tr) e := by
  simp [lifecycle, List.foldl_append]

theorem atMostOneLive_nil {σ : Type} : AtMostOneLive ([] : List (Event σ)) := by
  intro pre h
  have : pre = [] := List.prefix_nil.mp h
  subst this
  simp [observe]

theorem atMostOneLive_snoc {σ : Type} (tr : List (Event σ)) (e : Event σ) :
    AtMostOneLive (tr ++ [e]) ↔
      AtMostOneLive tr ∧ (observe (tr ++ [e])).live.length ≤ 1 := by
  constructor
  · intro h
    exact ⟨fun pre hp => h pre (hp.trans (List.prefix_append tr [e])), h _ (List.prefix_refl _)⟩
  · rintro ⟨h1, h2⟩ pre hp
    rcases List.prefix_concat_iff.mp hp with h | h
    · rw [h]; exact h2
    · exact h1 pre h

theorem allApproved_nil {σ : Type} (env : Env σ) : AllApproved env ([] : List (Event σ)) := by
  intro pre e h
  have := List.prefix_nil.mp h
  simp at this

theorem allApproved_snoc {σ : Type} (env : Env σ) (tr : List (Event σ)) (e : Event σ) :
    AllApproved env (tr ++ [e]) ↔ AllApproved env tr ∧ approved env tr e = true := by
  constructor
  · intro h
    exact ⟨fun pre e' hp => h pre e' (hp.trans (List.prefix_append tr [e])),
      h tr e (List.prefix_refl _)⟩
  · rintro ⟨h1, h2⟩ pre e' hp
    rcases List.prefix_concat_iff.mp hp with h | h
    · obtain ⟨rfl, h3⟩ := List.append_inj' h rfl
      cases h3
      exact h2
    · exact h1 pre e' h


theorem observe_append {σ : Type} (tr evs : List (Event σ)) :
    observe (tr ++ evs) = evs.foldl observeStep (observe tr) := by
  simp [observe, List.foldl_append]

theorem lifecycle_append {σ : Type} (tr evs : List (Event σ)) :
    lifecycle (tr ++ evs) = evs.foldl lifeStep (lifecycle tr) := by
  simp [lifecycle, List.foldl_append]

theorem atMostOneLive_append {σ : Type} : ∀ (evs tr : List (Event σ)),
    AtMostOneLive (tr ++ evs) ↔ AtMostOneLive tr ∧ LiveFrom (observe tr) evs
  | [], tr => by simp [LiveFrom]
  | e :: evs, tr => by
    have ih := atMostOneLive_append evs (tr ++ [e])
    rw [List.append_assoc, List.singleton_append] at ih
    rw [ih, atMostOneLive_snoc, observe_snoc]
    simp [LiveFrom, and_assoc]

theorem allApproved_append {σ : Type} (env : Env σ) : ∀ (evs tr : List (Event σ)),
    AllApproved env (tr ++ evs) ↔ AllApproved env tr ∧ ApprovedFrom env tr evs
  | [], tr => by simp [ApprovedFrom]
  | e :: evs, tr => by
    have ih := allApproved_append env evs (tr ++ [e])
    rw [List.append_assoc, List.singleton_append] at ih
    rw [ih, allApproved_snoc]
    simp [ApprovedFrom, and_assoc]

theorem clean_append {σ : Type} (tr evs : List (Event σ)) :
    Clean (tr ++ evs) ↔ Clean tr ∧ Clean evs := by
  simp only [Clean, List.mem_append, not_or]
  exact ⟨fun h => ⟨fun op => (h op).1, fun op => (h op).2⟩, fun h op => ⟨h.1 op, h.2 op⟩⟩

theorem renderAndStart_good {σ : Type} (env : Env σ) (s : σ) (tr : List (Event σ))
    (h1 : lifecycle tr = some Phase.idle) (h2 : (observe tr).live = [])
    (h3 : AtMostOneLive tr) (h4 : AllApproved env tr) (h5 : Clean tr) :
    Good env (renderAndStart env s tr) := by
  unfold renderAndStart
  cases hr : env.render tr s with
  | none =>
    simp only [Good]
    refine ⟨?_, ?_, ?_, tr, _, rfl, h5⟩ <;>
      simp [failedAt, lifecycle_append, observe_append, atMostOneLive_append,
        allApproved_append, LiveFrom, ApprovedFrom, lifeStep, observeStep, approved,
        hr, h1, h2, h3, h4]
  | some d =>
    simp only [List.append_assoc, List.singleton_append, List.cons_append, List.nil_append,
      CheckError]
    by_cases hd : d = []
    · subst hd
      simp only [List.length_nil, if_true, Good]
      constructor <;>
        simp [lifecycle_append, observe_append, atMostOneLive_append, allApproved_append,
          clean_append, Clean, LiveFrom, ApprovedFrom, lifeStep,
          observeStep, approved, phaseOf, liveOf, h1, h2, h3, h4, hr]
      exact h5
    · have hd' : ¬ d.length = 0 := by simpa using hd
      simp only [hd', if_false]
      cases hw : env.succeeds (tr ++ [Event.rendered s d]) (Op.writeFile d) with
      | false =>
        simp only [Bool.false_eq_true, if_false, Good]
        refine ⟨?_, ?_, ?_, tr ++ [Event.rendered s d], Op.writeFile d, by simp, ?_⟩ <;>
          simp [failedAt, lifecycle_append, observe_append, atMostOneLive_append,
            allApproved_append, clean_append, Clean, LiveFrom, ApprovedFrom, lifeStep,
            observeStep, approved, h1, h2, h3, h4, hr, hw]
        exact h5
      | true =>
        cases hx : env.succeeds (tr ++ [Event.rendered s d, Event.wroteFile d])
            (Op.redact d) with
        | false =>
          simp only [Bool.false_eq_true, if_false, if_true, Good]
          refine ⟨?_, ?_, ?_, tr ++ [Event.rendered s d, Event.wroteFile d], Op.redact d,
            by simp, ?_⟩ <;>
            simp [failedAt, lifecycle_append, observe_append, atMostOneLive_append,
              allApproved_append, clean_append, Clean, LiveFrom, ApprovedFrom, lifeStep,
              observeStep, approved, h1, h2, h3, h4, hr, hw, hx]
          exact h5
        | true =>
          cases hy : env.succeeds
              (tr ++ [Event.rendered s d, Event.wroteFile d, Event.logDebug d])
              Op.start with
          | false =>
            simp only [Bool.false_eq_true, if_false, if_true, Good]
            refine ⟨?_, ?_, ?_,
              tr ++ [Event.rendered s d, Event.wroteFile d, Event.logDebug d], Op.start, by simp, ?_⟩ <;>
              simp [failedAt, lifecycle_append, observe_append, atMostOneLive_append,
                allApproved_append, clean_append, Clean, LiveFrom, ApprovedFrom, lifeStep,
                observeStep, approved, h1, h2, h3, h4, hr, hw, hx, hy]
            exact h5
          | true =>
            simp only [hy, if_true, Good]
            constructor <;>
              simp [lifecycle_append, observe_append, atMostOneLive_append,
                allApproved_append, clean_append, Clean, LiveFrom, ApprovedFrom,
                lifeStep, observeStep, approved, phaseOf, liveOf, h1, h2, h3, h4, hr, hw, hx,
                hy, hd]
            exact h5

theorem terminate_good {σ : Type} (env : Env σ) (cmd : Option Nat) (d : Bytes)
    (tr : List (Event σ)) (next : List (Event σ) → Outcome σ)
    (h1 : lifecycle tr = some (phaseOf cmd)) (h2 : (observe tr).live = liveOf cmd d)
    (h3 : AtMostOneLive tr) (h4 : AllApproved env tr) (h5 : Clean tr)
    (hnext : ∀ tr', lifecycle tr' = some Phase.idle → (observe tr').live = [] →
      AtMostOneLive tr' → AllApproved env tr' → Clean tr' → Good env (next tr')) :
    Good env (terminate env cmd tr next) := by
  unfold terminate
  cases cmd with
  | none => exact hnext tr h1 h2 h3 h4 h5
  | some proc =>
    simp only [List.append_assoc, List.singleton_append, List.cons_append, List.nil_append,
      CheckError]
    cases hs : env.succeeds tr (Op.signal proc) with
    | false =>
      simp only [Bool.false_eq_true, if_false, Good]
      refine ⟨?_, ?_, ?_, tr, _, rfl, h5⟩ <;>
        simp [failedAt, lifecycle_append, observe_append, atMostOneLive_append,
          allApproved_append, LiveFrom, ApprovedFrom, lifeStep, observeStep, approved,
          phaseOf, liveOf, h1, h2, h3, h4, hs]
    | true =>
      cases hw : env.succeeds (tr ++ [Event.signalled proc]) (Op.wait proc) with
      | false =>
        simp only [Bool.false_eq_true, if_false, if_true, Good]
        refine ⟨?_, ?_, ?_, tr ++ [Event.signalled proc], Op.wait proc, by simp, ?_⟩ <;>
          simp [failedAt, lifecycle_append, observe_append, atMostOneLive_append,
            allApproved_append, clean_append, Clean, LiveFrom, ApprovedFrom, lifeStep,
            observeStep, approved, phaseOf, liveOf, h1, h2, h3, h4, hs, hw]
        exact h5
      | true =>
        simp only [if_true]
        apply hnext <;>
          simp [lifecycle_append, observe_append, atMostOneLive_append,
            allApproved_append, clean_append, Clean, LiveFrom, ApprovedFrom, lifeStep,
            observeStep, approved, phaseOf, liveOf, h1, h2, h3, h4, hs, hw]
        exact h5

theorem onUpdate_good {σ : Type} (env : Env σ) (st : Sup σ) (u : σ) (h : Inv env st) :
    Good env (onUpdate env st u) := by
  unfold onUpdate
  simp only [List.append_assoc, List.singleton_append, List.cons_append, List.nil_append]
  have hlen : (liveOf st.cmd st.dexCfgBytes).length ≤ 1 := by
    cases st.cmd <;> simp [liveOf]
  cases hr : env.render (st.trace ++ [Event.received u]) u with
  | none =>
    simp only [Good]
    refine ⟨?_, ?_, ?_, st.trace ++ [Event.received u], Op.render u, by simp, ?_⟩
    · simp [lifecycle_append, lifeStep, h.phase]
    · simp [atMostOneLive_append, LiveFrom, observeStep, h.bounded, h.live, hlen]
    · simp [allApproved_append, ApprovedFrom, approved, failedAt, h.approved, hr]
    · simpa [clean_append, Clean] using h.clean
  | some d =>
    by_cases hd : d = st.dexCfgBytes
    · simp only [hd, ne_eq, not_true_eq_false, if_false, Good]
      subst hd
      refine ⟨?_, ?_, ?_, ?_, ?_, ?_, ?_⟩
      · simp [lifecycle_append, lifeStep, h.phase]
      · simp [observe_append, observeStep, h.live]
      · intro proc hp
        simpa [observe_append, observeStep] using h.file proc hp
      · exact h.running
      · simp [atMostOneLive_append, LiveFrom, observeStep, h.bounded, h.live, hlen]
      · simp [allApproved_append, ApprovedFrom, approved, h.approved, hr]
      · simpa [clean_append, Clean] using h.clean
    · simp only [ne_eq, hd, not_false_eq_true, if_true]
      apply terminate_good env st.cmd st.dexCfgBytes
      · simp [lifecycle_append, lifeStep, h.phase]
      · simp [observe_append, observeStep, h.live]
      · simp [atMostOneLive_append, LiveFrom, observeStep, h.bounded, h.live, hlen]
      · simp [allApproved_append, ApprovedFrom, approved, h.approved, hr]
      · simpa [clean_append, Clean] using h.clean
      · intro tr' a b c e f
        exact renderAndStart_good env u tr' a b c e f

theorem superviseFrom_good {σ : Type} (env : Env σ) :
    ∀ (updates : List σ) (o : Outcome σ), Good env o → Good env (superviseFrom env o updates)
  | [], o, h => by cases o <;> simpa [superviseFrom] using h
  | u :: us, Outcome.waiting st, h => by
    simp only [superviseFrom]
    exact superviseFrom_good env us _ (onUpdate_good env st u h)
  | u :: us, Outcome.fatal tr, h => by simpa [superviseFrom] using h

theorem rundex_good {σ : Type} (env : Env σ) (init : σ) (updates : List σ) :
    Good env (rundex env init updates) := by
  unfold rundex
  apply superviseFrom_good
  apply renderAndStart_good
  · rfl
  · rfl
  · exact atMostOneLive_nil
  · exact allApproved_nil env
  · intro op h; simp at h


theorem superviseFrom_fatal {σ : Type} (env : Env σ) (tr : List (Event σ)) :
    ∀ updates : List σ, superviseFrom env (Outcome.fatal tr) updates = Outcome.fatal tr
  | [] => rfl
  | _ :: _ => rfl

theorem superviseFrom_append {σ : Type} (env : Env σ) :
    ∀ (us more : List σ) (o : Outcome σ),
      superviseFrom env o (us ++ more) = superviseFrom env (superviseFrom env o us) more
  | [], more, o => by cases o <;> simp [superviseFrom]
  | u :: us, more, Outcome.waiting st => by
    simp only [List.cons_append, superviseFrom]
    exact superviseFrom_append env us more _
  | u :: us, more, Outcome.fatal tr => by
    simp [superviseFrom, superviseFrom_fatal]

theorem rundex_append {σ : Type} (env : Env σ) (init : σ) (us more : List σ) :
    rundex env init (us ++ more) = superviseFrom env (rundex env init us) more := by
  simp [rundex, superviseFrom_append]

theorem renderAndStart_waiting {σ : Type} (env : Env σ) (s : σ) (tr : List (Event σ))
    (st : Sup σ) (h : renderAndStart env s tr = Outcome.waiting st) :
    env.render tr s = some st.dexCfgBytes ∧
    st.cmd = (if st.dexCfgBytes.length = 0 then none else some (tr.length + 3)) ∧
    st.trace = tr ++ Event.rendered s st.dexCfgBytes ::
      startEvents st.dexCfgBytes (tr.length + 3) := by
  unfold renderAndStart at h
  cases hr : env.render tr s with
  | none => simp [hr] at h
  | some d =>
    simp only [hr, CheckError] at h
    by_cases hd : d.length = 0
    · simp only [hd, if_true, Outcome.waiting.injEq] at h
      subst h
      simp [startEvents, hd]
    · simp only [hd, if_false] at h
      split at h
      · split at h
        · split at h
          · simp only [Outcome.waiting.injEq] at h
            subst h
            simp [startEvents, hd]
          · simp at h
        · simp at h
      · simp at h

theorem terminate_waiting {σ : Type} (env : Env σ) (cmd : Option Nat) (tr : List (Event σ))
    (next : List (Event σ) → Outcome σ) (st : Sup σ)
    (h : terminate env cmd tr next = Outcome.waiting st) :
    next (tr ++ stopEvents cmd) = Outcome.waiting st := by
  unfold terminate at h
  cases cmd with
  | none => simpa [stopEvents] using h
  | some proc =>
    simp only [CheckError] at h
    split at h
    · split at h
      · simpa [stopEvents] using h
      · simp at h
    · simp at h

theorem renderAndStart_extends {σ : Type} (env : Env σ) (s : σ) (tr : List (Event σ)) :
    tr <+: (renderAndStart env s tr).trace := by
  unfold renderAndStart
  cases env.render tr s with
  | none => simp [Outcome.trace]
  | some d =>
    simp only [CheckError]
    repeat' split
    all_goals simp [Outcome.trace, List.append_assoc]

theorem terminate_extends {σ : Type} (env : Env σ) (cmd : Option Nat) (tr : List (Event σ))
    (next : List (Event σ) → Outcome σ) (hnext : ∀ tr', tr' <+: (next tr').trace) :
    tr <+: (terminate env cmd tr next).trace := by
  unfold terminate
  cases cmd with
  | none => exact hnext tr
  | some proc =>
    simp only [CheckError]
    repeat' split
    · have h := hnext (tr ++ [Event.signalled proc] ++ [Event.waited proc])
      exact ((List.prefix_append tr _).trans (List.prefix_append _ _)).trans h
    all_goals simp [Outcome.trace, List.append_assoc]

theorem restart_ne_unmodified {σ : Type} (env : Env σ) (st : Sup σ) (u : σ) (d : Bytes) :
    restart env st u d ≠ unmodified st u d := by
  intro h
  have hp := terminate_extends env st.cmd
    (st.trace ++ [Event.received u, Event.rendered u d,
      Event.logInfo "dex config modified. restarting dex"])
    (renderAndStart env u) (renderAndStart_extends env u)
  unfold restart at h
  rw [h] at hp
  simp only [unmodified, Outcome.trace, List.prefix_append_right_inj] at hp
  have := List.IsPrefix.eq_of_length hp (by simp)
  simp at this


theorem onUpdate_eq {σ : Type} (env : Env σ) (st : Sup σ) (u : σ) (d : Bytes)
    (hr : env.render (st.trace ++ [Event.received u]) u = some d) :
    onUpdate env st u = if d ≠ st.dexCfgBytes then restart env st u d else unmodified st u d := by
  unfold onUpdate restart unmodified
  simp only [hr, List.append_assoc, List.singleton_append, List.cons_append, List.nil_append]

theorem superviseFrom_unmodified {σ : Type} (env : Env σ) :
    ∀ (us : List σ) (st : Sup σ),
      (∀ h u, u ∈ us → env.render h u = some st.dexCfgBytes) →
      superviseFrom env (Outcome.waiting st) us = Outcome.waiting (st.logged
        (us.flatMap (fun u => [Event.received u, Event.rendered u st.dexCfgBytes,
          Event.logInfo "dex config unmodified"])))
  | [], st, _ => by simp [superviseFrom]
  | u :: us, st, h => by
    have hu := h (st.trace ++ [Event.received u]) u (List.mem_cons_self u us)
    have ih := superviseFrom_unmodified env us
      (st.logged [Event.received u, Event.rendered u st.dexCfgBytes,
          Event.logInfo "dex config unmodified"])
      (fun h' u' hu' => h h' u' (List.mem_cons_of_mem u hu'))
    simp only [superviseFrom, onUpdate_eq env st u _ hu, ne_eq, not_true_eq_false, if_false,
      unmodified, ih]
    simp [List.flatMap_cons]

theorem onUpdate_waiting_render {σ : Type} (env : Env σ) (hdet : Deterministic env)
    (st st' : Sup σ) (u : σ) (h : onUpdate env st u = Outcome.waiting st') :
    env.render [] u = some st'.dexCfgBytes := by
  cases hr : env.render (st.trace ++ [Event.received u]) u with
  | none =>
    unfold onUpdate at h
    simp [hr] at h
  | some d =>
    rw [onUpdate_eq env st u d hr] at h
    by_cases hd : d = st.dexCfgBytes
    · simp only [hd, ne_eq, not_true_eq_false, if_false, unmodified,
        Outcome.waiting.injEq] at h
      rw [hdet [] (st.trace ++ [Event.received u]) u, hr, hd, ← h]
      simp
    · simp only [ne_eq, hd, not_false_eq_true, if_true, restart] at h
      have h2 := (renderAndStart_waiting env u _ st' (terminate_waiting env _ _ _ st' h)).1
      rw [hdet [] _ u, h2]

theorem superviseFrom_latest {σ : Type} (env : Env σ) (hdet : Deterministic env) :
    ∀ (us : List σ) (o : Outcome σ) (last : σ),
      (∀ st, o = Outcome.waiting st → env.render [] last = some st.dexCfgBytes) →
      ∀ st, superviseFrom env o us = Outcome.waiting st →
        env.render [] (latestSettings last us) = some st.dexCfgBytes
  | [], o, last, h, st, hst => by
    cases o <;> simp only [superviseFrom] at hst
    · exact h st hst
    · exact h st hst
  | u :: us, Outcome.waiting st0, last, _, st, hst => by
    simp only [superviseFrom] at hst
    exact superviseFrom_latest env hdet us (onUpdate env st0 u) u
      (fun st1 h1 => onUpdate_waiting_render env hdet st0 st1 u h1) st hst
  | u :: us, Outcome.fatal tr, last, _, st, hst => by
    simp [superviseFrom] at hst


/-! ## Claims about redaction -/

/-- C1: log redaction (`iterateStringFields` with the callback of `redactor`) leaves at every
path the same kind of node (same key list for a map, same length for a sequence, same
non-string scalar), and a string is replaced by the 8-character mask exactly when the last
step of its path is a map key equal to clientSecret, secret or bindPW; every other string is
unchanged. The connectors/config/bindPW example is redacted as the specification says. -/
theorem redactor_masks_exactly_named_fields :
    (∀ (config : Value) (p : List Step),
      ((redactTree config).get? p).map Value.kind =
        (config.get? p).map (fun u => match u with
          | Value.str s =>
              if parentKey p = some "clientSecret" ∨ parentKey p = some "secret"
                  ∨ parentKey p = some "bindPW"
              then Kind.str "********" else Kind.str s
          | other => other.kind)) ∧
    String.length "********" = 8 ∧
    redactTree connectorsExample = connectorsRedacted := by
  refine ⟨fun config p => ?_, rfl, rfl⟩
  unfold redactTree
  rw [iterateStringFields_kind_at]
  congr 1
  funext u
  cases u <;> simp only [expectedKind]
  cases h : parentKey p with
  | none => simp
  | some k =>
    simp only [redactorCallback, Option.some.injEq]
    split <;> rfl

/-- C2: for every tree and every callback, `iterateStringFields` keeps at every path the same
kind of node: a map keeps its key list, a sequence its length (and, paths being by index, its
element order), a non-string scalar its value, and a string that is not the direct value of a
map key (the root, a sequence element) its content; a string that is the direct value of a
map key `k` becomes `callback k value`. -/
theorem iterateStringFields_preserves_shape (callback : String → String → String)
    (v : Value) (p : List Step) :
    ((iterateStringFields callback v).get? p).map Value.kind =
      (v.get? p).map (fun u => match u, parentKey p with
        | Value.str s, some k => Kind.str (callback k s)
        | other, _ => other.kind) := by
  rw [iterateStringFields_kind_at]
  congr 1
  funext u
  cases u <;> cases h : parentKey p <;> simp [expectedKind, h, Value.kind]

/-- C3: when the top-level `staticClients` value is a sequence, display redaction keeps that
sequence's length, turns every map element into a map with the same keys, and the `secret`
field of every such element that has one holds six stars afterwards; the two-client example
of the specification comes out as stated. -/
theorem dump_masks_client_secrets :
    (∀ (dexCfg : List (String × Value)) (xs : List Value),
      dexCfg.lookup "staticClients" = some (Value.seq xs) →
        ∃ ys, (maskedDexCfg dexCfg).lookup "staticClients" = some (Value.seq ys) ∧
          ys.length = xs.length ∧
          ∀ (i : Nat) (mappings : List (String × Value)),
            xs[i]? = some (Value.map mappings) →
              ∃ masked, ys[i]? = some (Value.map masked) ∧
                masked.map Prod.fst = mappings.map Prod.fst ∧
                masked.lookup "secret" =
                  (mappings.lookup "secret").map (fun _ => Value.str "******")) ∧
    maskedDexCfg specExample = specExampleMasked := by
  refine ⟨fun dexCfg xs h => ?_, rfl⟩
  refine ⟨maskStaticClients xs, ?_, maskStaticClients_length xs, fun i mappings hi => ?_⟩
  · rw [maskedDexCfg_lookup_clients, h]
  · refine ⟨maskSecretFields mappings, ?_, maskSecretFields_keys mappings, ?_⟩
    · rw [maskStaticClients_getElem?, hi]
      rfl
    · rw [maskSecretFields_lookup]
      simp

theorem dump_masks_client_secrets_witness :
    specExample.lookup "staticClients" = some (Value.seq
      [Value.map [("id", Value.str "x"), ("secret", Value.str "abc")],
       Value.map [("id", Value.str "y"), ("secret", Value.str "def")]]) ∧
    ∃ ys, (maskedDexCfg specExample).lookup "staticClients" = some (Value.seq ys) ∧
      ys.length = 2 ∧
      ∀ (i : Nat) (mappings : List (String × Value)),
        [Value.map [("id", Value.str "x"), ("secret", Value.str "abc")],
         Value.map [("id", Value.str "y"), ("secret", Value.str "def")]][i]?
            = some (Value.map mappings) →
          ∃ masked, ys[i]? = some (Value.map masked) ∧
            masked.map Prod.fst = mappings.map Prod.fst ∧
            masked.lookup "secret" =
              (mappings.lookup "secret").map (fun _ => Value.str "******") :=
  ⟨rfl, dump_masks_client_secrets.1 specExample _ rfl⟩

/-- C4, as stated, fails: in the document whose only client has the number 12345 under
`secret`, that non-string value is replaced by display redaction. -/
theorem dump_replaces_non_string_secret :
    ¬ (∀ (p : List Step) (u : Value),
        (Value.map numericSecret).get? p = some u → (∀ s, u ≠ Value.str s) →
          ((Value.map (maskedDexCfg numericSecret)).get? p).map Value.kind = some u.kind) := by
  intro h
  have h1 := h [Step.key "staticClients", Step.idx 0, Step.key "secret"] (Value.num 12345) rfl
    (fun s hs => by cases hs)
  have h2 : ((Value.map (maskedDexCfg numericSecret)).get?
      [Step.key "staticClients", Step.idx 0, Step.key "secret"]).map Value.kind
        = some (Kind.str "******") := rfl
  rw [h2] at h1
  cases h1

/-- C4, amended: display redaction keeps at every path the same kind of node (key lists,
sequence lengths, scalars and strings unchanged), except that whatever value is stored under
the key `secret` of a map element of the top-level `staticClients` sequence, string or not,
becomes the string of six stars, and therefore nothing exists below such a field
afterwards. -/
theorem dump_frame (dexCfg : List (String × Value)) (p : List Step) :
    ((Value.map (maskedDexCfg dexCfg)).get? p).map Value.kind =
      if secretFieldPath p then
        ((Value.map dexCfg).get? p).map (fun _ => Kind.str "******")
      else if belowSecretField p then none
      else ((Value.map dexCfg).get? p).map Value.kind := by
  cases p with
  | nil => simp [Value.get?, Value.kind, secretFieldPath, belowSecretField, maskedDexCfg_keys]
  | cons t r =>
    cases t with
    | idx i => simp [Value.get?, Value.child, secretFieldPath, belowSecretField]
    | key a =>
      by_cases ha : a = "staticClients"
      · subst ha
        simp only [get?_key, maskedDexCfg_lookup_clients]
        cases h : dexCfg.lookup "staticClients" with
        | none => simp
        | some v =>
          have hc := clients_frame v r
          cases v <;> simpa using hc
      · have hp := secretFieldPath_other a r ha
        simp only [get?_key, maskedDexCfg_lookup_other dexCfg a ha, hp.1, hp.2]
        simp

/-- C9, as stated, fails: on the document whose client has a `secret` string one level down,
the hand-written masking leaves it and the general routine masks it. -/
theorem dump_differs_from_general_routine :
    maskedDexCfg nestedSecret ≠ maskedViaIterate nestedSecret := by
  simp [maskedDexCfg, maskedViaIterate, nestedSecret, List.lookup, setKey, maskStaticClients,
    maskSecretFields, iterateStringFields, iterateElems, iterateFields, dumpCallback]

/-- C9, amended: on every document in which, below `staticClients`, strings stored under
`secret` occur only as direct fields of the map elements of the sequence and every `secret`
field of such an element is a string, display redaction equals the general routine run with
the callback that masks `secret`, applied to the value under `staticClients`. -/
theorem dump_is_general_routine_when_scoped (dexCfg : List (String × Value))
    (h : dumpScoped dexCfg = true) : maskedDexCfg dexCfg = maskedViaIterate dexCfg :=
  maskedDexCfg_eq_iterate dexCfg h

theorem dump_is_general_routine_when_scoped_witness :
    dumpScoped specExample = true ∧
      maskedDexCfg specExample = maskedViaIterate specExample ∧
      maskedViaIterate specExample = specExampleMasked :=
  ⟨rfl, dump_is_general_routine_when_scoped specExample rfl, rfl⟩

/-- C10: two trees that are identical except for the string values stored directly under
the keys clientSecret, secret or bindPW have the same log redaction. -/
theorem redaction_independent_of_secrets (v w : Value)
    (h : sameExceptSecrets v w = true) : redactTree v = redactTree w :=
  redact_eq_of_same v w h

theorem redaction_independent_of_secrets_witness :
    sameExceptSecrets secretsA secretsB = true ∧ redactTree secretsA = redactTree secretsB :=
  ⟨rfl, redaction_independent_of_secrets secretsA secretsB rfl⟩


/-! ### Errors of the operations -/

theorem renderAndStart_render_fails {σ : Type} (env : Env σ) (s : σ) (h : List (Event σ))
    (hr : env.render h s = none) :
    renderAndStart env s h = Outcome.fatal (h ++ [Event.failed (Op.render s)]) := by
  unfold renderAndStart
  simp only [hr]

theorem renderAndStart_write_fails {σ : Type} (env : Env σ) (s : σ) (h : List (Event σ))
    (d : Bytes) (hr : env.render h s = some d) (hd : d ≠ [])
    (hw : env.succeeds (h ++ [Event.rendered s d]) (Op.writeFile d) = false) :
    renderAndStart env s h
      = Outcome.fatal (h ++ [Event.rendered s d, Event.failed (Op.writeFile d)]) := by
  have hd' : ¬ d.length = 0 := by simpa using hd
  unfold renderAndStart
  simp [hr, hd', CheckError, hw]

theorem renderAndStart_redact_fails {σ : Type} (env : Env σ) (s : σ) (h : List (Event σ))
    (d : Bytes) (hr : env.render h s = some d) (hd : d ≠ [])
    (hw : env.succeeds (h ++ [Event.rendered s d]) (Op.writeFile d) = true)
    (hx : env.succeeds (h ++ [Event.rendered s d, Event.wroteFile d]) (Op.redact d) = false) :
    renderAndStart env s h = Outcome.fatal
      (h ++ [Event.rendered s d, Event.wroteFile d, Event.failed (Op.redact d)]) := by
  have hd' : ¬ d.length = 0 := by simpa using hd
  unfold renderAndStart
  simp [hr, hd', CheckError, hw, hx]

theorem renderAndStart_start_fails {σ : Type} (env : Env σ) (s : σ) (h : List (Event σ))
    (d : Bytes) (hr : env.render h s = some d) (hd : d ≠ [])
    (hw : env.succeeds (h ++ [Event.rendered s d]) (Op.writeFile d) = true)
    (hx : env.succeeds (h ++ [Event.rendered s d, Event.wroteFile d]) (Op.redact d) = true)
    (hy : env.succeeds (h ++ [Event.rendered s d, Event.wroteFile d, Event.logDebug d])
      Op.start = false) :
    renderAndStart env s h = Outcome.fatal
      (h ++ [Event.rendered s d, Event.wroteFile d, Event.logDebug d,
        Event.failed Op.start]) := by
  have hd' : ¬ d.length = 0 := by simpa using hd
  unfold renderAndStart
  simp [hr, hd', CheckError, hw, hx, hy]

theorem onUpdate_render_fails {σ : Type} (env : Env σ) (st : Sup σ) (u : σ)
    (hr : env.render (st.trace ++ [Event.received u]) u = none) :
    onUpdate env st u
      = Outcome.fatal (st.trace ++ [Event.received u, Event.failed (Op.render u)]) := by
  unfold onUpdate
  simp [hr]

theorem onUpdate_signal_fails {σ : Type} (env : Env σ) (st : Sup σ) (u : σ) (d : Bytes)
    (proc : Nat) (hr : env.render (st.trace ++ [Event.received u]) u = some d)
    (hd : d ≠ st.dexCfgBytes) (hc : st.cmd = some proc)
    (hs : env.succeeds (modifiedAt st u d) (Op.signal proc) = false) :
    onUpdate env st u
      = Outcome.fatal (modifiedAt st u d ++ [Event.failed (Op.signal proc)]) := by
  rw [onUpdate_eq env st u d hr]
  simp only [ne_eq, hd, not_false_eq_true, if_true, restart, terminate, hc, CheckError]
  unfold modifiedAt at hs
  simp [hs, modifiedAt]

theorem onUpdate_wait_fails {σ : Type} (env : Env σ) (st : Sup σ) (u : σ) (d : Bytes)
    (proc : Nat) (hr : env.render (st.trace ++ [Event.received u]) u = some d)
    (hd : d ≠ st.dexCfgBytes) (hc : st.cmd = some proc)
    (hs : env.succeeds (modifiedAt st u d) (Op.signal proc) = true)
    (hw : env.succeeds (modifiedAt st u d ++ [Event.signalled proc]) (Op.wait proc) = false) :
    onUpdate env st u = Outcome.fatal
      (modifiedAt st u d ++ [Event.signalled proc, Event.failed (Op.wait proc)]) := by
  rw [onUpdate_eq env st u d hr]
  simp only [ne_eq, hd, not_false_eq_true, if_true, restart, terminate, hc, CheckError]
  simp only [modifiedAt, List.append_assoc, List.cons_append, List.nil_append,
    List.singleton_append] at hs hw
  simp [hs, hw, modifiedAt]

theorem onUpdate_enters_start {σ : Type} (env : Env σ) (st : Sup σ) (u : σ) (d : Bytes)
    (hr : env.render (st.trace ++ [Event.received u]) u = some d)
    (hd : d ≠ st.dexCfgBytes) (hs : StopSucceeds env st.cmd (modifiedAt st u d)) :
    onUpdate env st u = renderAndStart env u (modifiedAt st u d ++ stopEvents st.cmd) := by
  rw [onUpdate_eq env st u d hr]
  simp only [ne_eq, hd, not_false_eq_true, if_true, restart, terminate]
  cases hc : st.cmd with
  | none => simp [stopEvents, modifiedAt]
  | some proc =>
    rw [hc] at hs
    obtain ⟨h1, h2⟩ := hs
    simp only [modifiedAt, List.append_assoc, List.cons_append, List.nil_append,
      List.singleton_append] at h1 h2
    simp [CheckError, h1, h2, stopEvents, modifiedAt]

theorem rundex_nil {σ : Type} (env : Env σ) (init : σ) :
    rundex env init [] = renderAndStart env init [] := by
  unfold rundex
  cases renderAndStart env init [] <;> rfl

theorem rundex_snoc_waiting {σ : Type} (env : Env σ) (init : σ) (us : List σ) (u : σ)
    (st : Sup σ) (h : rundex env init us = Outcome.waiting st) :
    rundex env init (us ++ [u]) = onUpdate env st u := by
  rw [rundex_append, h]
  simp only [superviseFrom]

theorem rundex_fatal_extends {σ : Type} (env : Env σ) (init : σ) (us more : List σ)
    (tr : List (Event σ)) (h : rundex env init us = Outcome.fatal tr) :
    rundex env init (us ++ more) = Outcome.fatal tr := by
  rw [rundex_append, h, superviseFrom_fatal]

theorem rundex_update_fatal {σ : Type} (env : Env σ) (init : σ) (us more : List σ) (u : σ)
    (st : Sup σ) (tr : List (Event σ)) (h : rundex env init us = Outcome.waiting st)
    (hu : onUpdate env st u = Outcome.fatal tr) :
    rundex env init (us ++ u :: more) = Outcome.fatal tr := by
  have h1 : us ++ u :: more = (us ++ [u]) ++ more := by simp
  rw [h1]
  exact rundex_fatal_extends env init _ more tr
    ((rundex_snoc_waiting env init us u st h).trans hu)

theorem rundex_of_entersStart {σ : Type} (env : Env σ) (init : σ) (us : List σ) (s : σ)
    (h : List (Event σ)) (he : EntersStart env init us s h) :
    rundex env init us = renderAndStart env s h := by
  rcases he with ⟨rfl, rfl, rfl⟩ | ⟨us', st, d, rfl, hst, hr, hd, hs, rfl⟩
  · exact rundex_nil env s
  · rw [rundex_snoc_waiting env init us' s st hst]
    exact onUpdate_enters_start env st s d hr hd hs

/-! ## Claims about the supervisor -/

/-- C5: when the update renders to `d`, the update step is a restart (terminate the running
process if there is one, re-enter the render/start step) iff `d` differs from the retained
document, and is the side-effect-free self-loop iff `d` equals it; consequently a run whose
updates all render to the initial document only appends, per update, the receive, the render
and the "unmodified" log line: no signal, wait, file write or start after the initial one. -/
theorem restart_iff_rendering_differs {σ : Type} :
    (∀ (env : Env σ) (st : Sup σ) (u : σ) (d : Bytes),
      env.render (st.trace ++ [Event.received u]) u = some d →
        (onUpdate env st u = restart env st u d ↔ d ≠ st.dexCfgBytes) ∧
        (onUpdate env st u = unmodified st u d ↔ d = st.dexCfgBytes)) ∧
    (∀ (env : Env σ) (init : σ) (st0 : Sup σ) (us : List σ),
      renderAndStart env init [] = Outcome.waiting st0 →
      (∀ h u, u ∈ us → env.render h u = some st0.dexCfgBytes) →
        rundex env init us = Outcome.waiting (st0.logged
          (us.flatMap (fun u => [Event.received u, Event.rendered u st0.dexCfgBytes,
            Event.logInfo "dex config unmodified"])))) := by
  refine ⟨fun env st u d hr => ?_, fun env init st0 us h0 hus => ?_⟩
  · rw [onUpdate_eq env st u d hr]
    by_cases hd : d = st.dexCfgBytes
    · simp only [hd, ne_eq, not_true_eq_false, if_false, iff_false, iff_true]
      exact ⟨fun h => restart_ne_unmodified env st u _ h.symm, trivial⟩
    · simp only [ne_eq, hd, not_false_eq_true, if_true, iff_true, iff_false]
      exact ⟨trivial, restart_ne_unmodified env st u d⟩
  · unfold rundex
    rw [h0]
    exact superviseFrom_unmodified env us st0 hus

theorem restart_iff_rendering_differs_witness :
    (exampleEnv.render (bootedOn2.trace ++ [Event.received 4]) 4 = some [102] ∧
      ((onUpdate exampleEnv bootedOn2 4 = restart exampleEnv bootedOn2 4 [102]
          ↔ [102] ≠ bootedOn2.dexCfgBytes) ∧
       (onUpdate exampleEnv bootedOn2 4 = unmodified bootedOn2 4 [102]
          ↔ [102] = bootedOn2.dexCfgBytes))) ∧
    (renderAndStart exampleEnv 2 [] = Outcome.waiting bootedOn2 ∧
      rundex exampleEnv 2 [3, 2] = Outcome.waiting (bootedOn2.logged
        ([3, 2].flatMap (fun u => [Event.received u, Event.rendered u bootedOn2.dexCfgBytes,
          Event.logInfo "dex config unmodified"])))) :=
  ⟨⟨rfl, restart_iff_rendering_differs.1 exampleEnv bootedOn2 4 [102] rfl⟩,
   ⟨rfl, restart_iff_rendering_differs.2 exampleEnv 2 bootedOn2 [3, 2] rfl
      (fun _ u hu => by
        have hu' : u = 3 ∨ u = 2 := by simpa using hu
        rcases hu' with rfl | rfl <;> rfl)⟩⟩

/-- C6: in every run the trace obeys the process lifecycle (dex is started only when no
process is managed, that is after the previous one was signalled and then waited for), at
every point of the trace at most one started-and-not-yet-waited process exists, and an
update whose rendering differs from the retained document adds, when nothing fails, exactly
one stop/start cycle: the signal and wait of the running process (if any), one re-render,
and the write/start of the new document (or the "not configured" line when it is empty). -/
theorem one_process_at_a_time {σ : Type} (env : Env σ) (init : σ) (us : List σ) :
    lifecycle (rundex env init us).trace ≠ none ∧
    (∀ pre, pre <+: (rundex env init us).trace → (observe pre).live.length ≤ 1) ∧
    (∀ (us' : List σ) (u : σ) (st st' : Sup σ) (d : Bytes),
      us = us' ++ [u] →
      rundex env init us' = Outcome.waiting st →
      rundex env init us = Outcome.waiting st' →
      env.render (st.trace ++ [Event.received u]) u = some d →
      d ≠ st.dexCfgBytes →
        ∃ proc, st'.trace = st.trace ++
          [Event.received u, Event.rendered u d,
            Event.logInfo "dex config modified. restarting dex"] ++
          stopEvents st.cmd ++ [Event.rendered u st'.dexCfgBytes] ++
          startEvents st'.dexCfgBytes proc ∧
          st'.cmd = (if st'.dexCfgBytes.length = 0 then none else some proc)) := by
  have hg := rundex_good env init us
  refine ⟨?_, ?_, ?_⟩
  · cases ho : rundex env init us with
    | waiting st => rw [ho] at hg; simp [Outcome.trace, hg.phase]
    | fatal tr => rw [ho] at hg; exact hg.1
  · cases ho : rundex env init us with
    | waiting st => rw [ho] at hg; exact hg.bounded
    | fatal tr => rw [ho] at hg; exact hg.2.1
  · intro us' u st st' d hus h1 h2 hr hd
    subst hus
    rw [rundex_append, h1] at h2
    simp only [superviseFrom] at h2
    rw [onUpdate_eq env st u d hr] at h2
    simp only [ne_eq, hd, not_false_eq_true, if_true, restart] at h2
    have h3 := renderAndStart_waiting env u _ st' (terminate_waiting env _ _ _ st' h2)
    exact ⟨_, by rw [h3.2.2]; simp, h3.2.1⟩

theorem one_process_at_a_time_witness :
    (rundex exampleEnv 2 [] = Outcome.waiting bootedOn2 ∧
      rundex exampleEnv 2 [4] = Outcome.waiting restartedOn4 ∧
      exampleEnv.render (bootedOn2.trace ++ [Event.received 4]) 4 = some [102] ∧
      ([102] : Bytes) ≠ bootedOn2.dexCfgBytes) ∧
    ∃ proc, restartedOn4.trace = bootedOn2.trace ++
        [Event.received 4, Event.rendered 4 [102],
          Event.logInfo "dex config modified. restarting dex"] ++
        stopEvents bootedOn2.cmd ++ [Event.rendered 4 restartedOn4.dexCfgBytes] ++
        startEvents restartedOn4.dexCfgBytes proc ∧
      restartedOn4.cmd = (if restartedOn4.dexCfgBytes.length = 0 then none else some proc) :=
  ⟨⟨rfl, rfl, rfl, by decide⟩,
    (one_process_at_a_time exampleEnv 2 [4]).2.2 [] 4 bootedOn2 restartedOn4 [102]
      rfl rfl rfl rfl (by decide)⟩

/-- C7: with deterministic rendering, whenever the supervisor waits for the next update, a
process is running iff the retained document is non-empty; the lifecycle is in the running
phase of that process (idle otherwise), it is the only live process, it was started on
exactly the retained document, which is also what the configuration file holds; the retained
document is the rendering of the latest snapshot (so a later snapshot with a non-empty
rendering has a process running on that rendering), and an empty initial rendering starts
nothing. -/
theorem retained_document_matches_process {σ : Type} (env : Env σ) (init : σ) (us : List σ)
    (st : Sup σ) (hdet : Deterministic env)
    (hrun : rundex env init us = Outcome.waiting st) :
    (st.cmd.isSome = true ↔ st.dexCfgBytes ≠ []) ∧
    lifecycle st.trace = some (phaseOf st.cmd) ∧
    (observe st.trace).live = liveOf st.cmd st.dexCfgBytes ∧
    (∀ proc, st.cmd = some proc → (observe st.trace).file = some st.dexCfgBytes) ∧
    env.render [] (latestSettings init us) = some st.dexCfgBytes ∧
    (us = [] → st.dexCfgBytes = [] → ∀ proc, Event.started proc ∉ st.trace) := by
  have hg := rundex_good env init us
  rw [hrun] at hg
  refine ⟨hg.running, hg.phase, hg.live, hg.file, ?_, ?_⟩
  · exact superviseFrom_latest env hdet us _ init
      (fun st0 h0 => (renderAndStart_waiting env init [] st0 h0).1) st hrun
  · intro hus hd proc
    subst hus
    have hrun' : renderAndStart env init [] = Outcome.waiting st := by
      cases ho : renderAndStart env init [] <;> simp [rundex, superviseFrom, ho] at hrun
      rw [hrun]
    have h3 := renderAndStart_waiting env init [] st hrun'
    rw [h3.2.2, hd]
    simp [startEvents]

theorem retained_document_matches_process_witness :
    (Deterministic exampleEnv ∧ rundex exampleEnv 0 [2] = Outcome.waiting configuredLater) ∧
    ((configuredLater.cmd.isSome = true ↔ configuredLater.dexCfgBytes ≠ []) ∧
      lifecycle configuredLater.trace = some (phaseOf configuredLater.cmd) ∧
      (observe configuredLater.trace).live
        = liveOf configuredLater.cmd configuredLater.dexCfgBytes ∧
      (∀ proc, configuredLater.cmd = some proc →
        (observe configuredLater.trace).file = some configuredLater.dexCfgBytes) ∧
      exampleEnv.render [] (latestSettings 0 [2]) = some configuredLater.dexCfgBytes ∧
      (([2] : List Nat) = [] → configuredLater.dexCfgBytes = [] →
        ∀ proc, Event.started proc ∉ configuredLater.trace)) :=
  ⟨⟨fun _ _ _ => rfl, rfl⟩,
    retained_document_matches_process exampleEnv 0 [2] configuredLater (fun _ _ _ => rfl) rfl⟩

/-- C8: an error of any operation the loop attempts ends the run at that point. In the
render/start step (entered at the beginning and after every completed shutdown) an error of
the rendering, of the file write, of the redaction for the debug log or of the start makes
the run fatal there; in the update step an error of the rendering, of the signal or of the
wait does; the failed operation is the last event of the trace, and whatever further updates
arrive the outcome is the same (nothing is retried, no later action is performed, no further
update is consumed). Conversely every recorded event is what the environment answered, and a
recorded failure is terminal. -/
theorem failure_is_fatal {σ : Type} (env : Env σ) (init : σ) (us : List σ) :
    (∀ (s : σ) (h : List (Event σ)), EntersStart env init us s h →
      (env.render h s = none →
        ∀ more, rundex env init (us ++ more)
          = Outcome.fatal (h ++ [Event.failed (Op.render s)])) ∧
      (∀ d, env.render h s = some d → d ≠ [] →
        (env.succeeds (h ++ [Event.rendered s d]) (Op.writeFile d) = false →
          ∀ more, rundex env init (us ++ more)
            = Outcome.fatal (h ++ [Event.rendered s d, Event.failed (Op.writeFile d)])) ∧
        (env.succeeds (h ++ [Event.rendered s d]) (Op.writeFile d) = true →
          env.succeeds (h ++ [Event.rendered s d, Event.wroteFile d]) (Op.redact d) = false →
          ∀ more, rundex env init (us ++ more) = Outcome.fatal
            (h ++ [Event.rendered s d, Event.wroteFile d, Event.failed (Op.redact d)])) ∧
        (env.succeeds (h ++ [Event.rendered s d]) (Op.writeFile d) = true →
          env.succeeds (h ++ [Event.rendered s d, Event.wroteFile d]) (Op.redact d) = true →
          env.succeeds (h ++ [Event.rendered s d, Event.wroteFile d, Event.logDebug d])
            Op.start = false →
          ∀ more, rundex env init (us ++ more) = Outcome.fatal
            (h ++ [Event.rendered s d, Event.wroteFile d, Event.logDebug d,
              Event.failed Op.start])))) ∧
    (∀ (st : Sup σ) (u : σ), rundex env init us = Outcome.waiting st →
      (env.render (st.trace ++ [Event.received u]) u = none →
        ∀ more, rundex env init (us ++ u :: more)
          = Outcome.fatal (st.trace ++ [Event.received u, Event.failed (Op.render u)])) ∧
      (∀ d proc, env.render (st.trace ++ [Event.received u]) u = some d →
        d ≠ st.dexCfgBytes → st.cmd = some proc →
        (env.succeeds (modifiedAt st u d) (Op.signal proc) = false →
          ∀ more, rundex env init (us ++ u :: more)
            = Outcome.fatal (modifiedAt st u d ++ [Event.failed (Op.signal proc)])) ∧
        (env.succeeds (modifiedAt st u d) (Op.signal proc) = true →
          env.succeeds (modifiedAt st u d ++ [Event.signalled proc]) (Op.wait proc) = false →
          ∀ more, rundex env init (us ++ u :: more) = Outcome.fatal
            (modifiedAt st u d ++ [Event.signalled proc, Event.failed (Op.wait proc)])))) ∧
    (∀ pre e, pre ++ [e] <+: (rundex env init us).trace → approved env pre e = true) ∧
    (∀ pre op, pre ++ [Event.failed op] <+: (rundex env init us).trace →
      failedAt env pre op = true ∧
      ∀ more, rundex env init (us ++ more) = Outcome.fatal (pre ++ [Event.failed op])) := by
  have hg := rundex_good env init us
  have happ : AllApproved env (rundex env init us).trace := by
    cases ho : rundex env init us with
    | waiting st => rw [ho] at hg; exact hg.approved
    | fatal tr => rw [ho] at hg; exact hg.2.2.1
  refine ⟨fun s h he => ?_, fun st u hst => ?_, happ,
    fun pre op hp => ⟨happ pre (Event.failed op) hp, fun more => ?_⟩⟩
  · have hrun := rundex_of_entersStart env init us s h he
    refine ⟨fun hr more => ?_, fun d hr hd => ⟨fun hw more => ?_, fun hw hx more => ?_,
      fun hw hx hy more => ?_⟩⟩
    · exact rundex_fatal_extends env init us more _
        (hrun.trans (renderAndStart_render_fails env s h hr))
    · exact rundex_fatal_extends env init us more _
        (hrun.trans (renderAndStart_write_fails env s h d hr hd hw))
    · exact rundex_fatal_extends env init us more _
        (hrun.trans (renderAndStart_redact_fails env s h d hr hd hw hx))
    · exact rundex_fatal_extends env init us more _
        (hrun.trans (renderAndStart_start_fails env s h d hr hd hw hx hy))
  · refine ⟨fun hr more => ?_, fun d proc hr hd hc => ⟨fun hs more => ?_,
      fun hs hw more => ?_⟩⟩
    · exact rundex_update_fatal env init us more u st _ hst
        (onUpdate_render_fails env st u hr)
    · exact rundex_update_fatal env init us more u st _ hst
        (onUpdate_signal_fails env st u d proc hr hd hc hs)
    · exact rundex_update_fatal env init us more u st _ hst
        (onUpdate_wait_fails env st u d proc hr hd hc hs hw)
  · cases ho : rundex env init us with
    | waiting st =>
      rw [ho] at hg hp
      exact absurd (hp.subset (by simp)) (hg.clean op)
    | fatal tr =>
      rw [ho] at hg hp
      obtain ⟨pre', op', htr, hclean⟩ := hg.2.2.2
      rw [rundex_append, ho, superviseFrom_fatal]
      subst htr
      rcases List.prefix_concat_iff.mp hp with h | h
      · rw [h]
      · exact absurd (h.subset (by simp)) (hclean op)

theorem failure_is_fatal_witness :
    (EntersStart startFailsEnv 1 [] 1 [] ∧
      startFailsEnv.render [] 1 = some [1] ∧ ([1] : Bytes) ≠ [] ∧
      startFailsEnv.succeeds ([] ++ [Event.rendered 1 [1]]) (Op.writeFile [1]) = true ∧
      startFailsEnv.succeeds ([] ++ [Event.rendered 1 [1], Event.wroteFile [1]])
        (Op.redact [1]) = true ∧
      startFailsEnv.succeeds
        ([] ++ [Event.rendered 1 [1], Event.wroteFile [1], Event.logDebug [1]])
        Op.start = false ∧
      ∀ more, rundex startFailsEnv 1 ([] ++ more) = Outcome.fatal
        ([] ++ [Event.rendered 1 [1], Event.wroteFile [1], Event.logDebug [1],
          Event.failed Op.start])) ∧
    (rundex renderFailsEnv 1 [] = Outcome.waiting bootedOn1 ∧
      renderFailsEnv.render (bootedOn1.trace ++ [Event.received 7]) 7 = none ∧
      ∀ more, rundex renderFailsEnv 1 ([] ++ 7 :: more) = Outcome.fatal
        (bootedOn1.trace ++ [Event.received 7, Event.failed (Op.render 7)])) ∧
    ([Event.rendered 1 [1], Event.wroteFile [1], Event.logDebug [1]] ++ [Event.failed Op.start]
        <+: (rundex startFailsEnv 1 [5]).trace ∧
      (failedAt startFailsEnv [Event.rendered 1 [1], Event.wroteFile [1], Event.logDebug [1]]
          Op.start = true ∧
        ∀ more, rundex startFailsEnv 1 ([5] ++ more) = Outcome.fatal
          ([Event.rendered 1 [1], Event.wroteFile [1], Event.logDebug [1]] ++
            [Event.failed Op.start]))) :=
  ⟨⟨Or.inl ⟨rfl, rfl, rfl⟩, rfl, by decide, rfl, rfl, rfl,
      (((failure_is_fatal startFailsEnv 1 []).1 1 [] (Or.inl ⟨rfl, rfl, rfl⟩)).2
        [1] rfl (by decide)).2.2 rfl rfl rfl⟩,
    ⟨rfl, rfl, ((failure_is_fatal renderFailsEnv 1 []).2.1 bootedOn1 7 rfl).1 rfl⟩,
    ⟨by decide, (failure_is_fatal startFailsEnv 1 [5]).2.2.2
      [Event.rendered 1 [1], Event.wroteFile [1], Event.logDebug [1]] Op.start (by decide)⟩⟩

end ArgoDex
